import Mathlib

/-!
# grmon command-line dashboard: `cli/main.go`

A shallow embedding of the refresh / display logic of `cli/main.go` and the
properties of it that the specification states.

Conventions of the embedding

* The package-level variables (`wmap`, `grid`, `paused`, `lastRefresh`, `sortKey`)
  form the record `State`; every Go function becomes a function on `State`.
* Go `int` is `Int`; a `time.Time` is a count of nanoseconds (`Int`); `time.Now()` is
  an explicit argument `now`. A `time.Duration` is an `int64` count of nanoseconds, and
  `time.Since` saturates at its two ends.
* A `float64` is the rational number it denotes; every floating-point operation is the
  exact operation followed by rounding to the nearest `float64`, ties to even.
* A Go run-time panic (index out of range) is the result `none`.
* The rows of the grid are pointers to the widgets owned by the widget map.  A pointer
  is modelled by the goroutine number under which the map holds the widget, so that a
  write through a row is a write to the map entry.
* The terminal is modelled by the counter `frames` of frames drawn.
-/

namespace Grmon

/-! ## Data model -/

/-- One record of a poll: `Routine` as used by `Refresh` (`r.Num`, `r.State`, `r.Trace`). -/
structure Routine where
  Num : Int
  State : String
  Trace : List String
deriving DecidableEq, Repr

/-- The widget of one goroutine: `w.desc.Text`, the state, the trace items and the flag
that `ToggleShowTrace` flips. -/
structure RoutineWidget where
  num : Int
  state : String
  desc : String
  trace : List String
  showTrace : Bool
deriving DecidableEq, Repr

/-- The widget cache `wmap`: goroutine number to widget. -/
abbrev WidgetMap := List (Int × RoutineWidget)

/-- The grid: its rows (pointers into the widget map), the cursor and the footer text. -/
structure Grid where
  rows : List Int
  cursorPos : Int
  footer : String
deriving DecidableEq, Repr

/-- The package-level variables of `cli/main.go`, `sortKey` included, and the terminal. -/
structure State where
  wmap : WidgetMap
  grid : Grid
  paused : Bool
  lastRefresh : Int
  sortKey : String
  frames : Nat
deriving DecidableEq, Repr

/-- The error value of a failed poll. -/
inductive PollError where
  | transport
  | totalParseFailure
deriving DecidableEq, Repr

/-! ## Widgets and the widget map -/

/-- Modelled from the spec: `NewRoutineWidget`, absent from src/. A widget is created on
the first sighting of an id, as a brand-new unit with `expanded = false`. -/
def NewRoutineWidget (num : Int) : RoutineWidget :=
  { num := num, state := "", desc := "", trace := [], showTrace := false }

/-- Modelled from the spec: `RoutineWidget.SetState`, absent from src/. It updates the
state label and leaves `expanded` untouched. -/
def RoutineWidget.SetState (w : RoutineWidget) (state : String) : RoutineWidget :=
  { w with state := state }

/-- Modelled from the spec: `RoutineWidget.SetTrace`, absent from src/. It updates the
trace lines and leaves `expanded` untouched. -/
def RoutineWidget.SetTrace (w : RoutineWidget) (trace : List String) : RoutineWidget :=
  { w with trace := trace }

/-- Modelled from the spec: `RoutineWidget.ToggleShowTrace`, absent from src/. It flips
`expanded` on the widget. -/
def RoutineWidget.ToggleShowTrace (w : RoutineWidget) : RoutineWidget :=
  { w with showTrace := !w.showTrace }

/-- The widget cached under `num`, if any. -/
def WidgetMap.Get : WidgetMap → Int → Option RoutineWidget
  | [], _ => none
  | (k, w) :: rest, num => if k = num then some w else WidgetMap.Get rest num

/-- A write through the pointer to the widget cached under `num`. -/
def WidgetMap.store : WidgetMap → Int → RoutineWidget → WidgetMap
  | [], num, w => [(num, w)]
  | (k, v) :: rest, num, w =>
    if k = num then (k, w) :: rest else (k, v) :: WidgetMap.store rest num w

/-- Modelled from the spec: `WidgetMap.MustGet`, absent from src/. Create-or-get the
widget matching the id: the cached widget when there is one, otherwise a new widget
which is added to the cache. -/
def WidgetMap.MustGet (wm : WidgetMap) (num : Int) : WidgetMap × RoutineWidget :=
  match WidgetMap.Get wm num with
  | some w => (wm, w)
  | none => (WidgetMap.store wm num (NewRoutineWidget num), NewRoutineWidget num)

/-- The goroutine numbers that have a widget in the cache, in cache order. -/
def WidgetMap.keys (wm : WidgetMap) : List Int := wm.map Prod.fst

/-! ## The grid -/

/-- Modelled from the spec: `Grid.Clear`, absent from src/. The rows are rebuilt from
nothing on every successful poll, not patched. -/
def Grid.Clear (g : Grid) : Grid := { g with rows := [] }

/-- Modelled from the spec: `Grid.AddRow`, absent from src/. The widget becomes the
next row of the grid. -/
def Grid.AddRow (g : Grid) (w : Int) : Grid := { g with rows := g.rows ++ [w] }

/-- Modelled from the spec: `Grid.CursorUp`, absent from src/. Move the cursor up by one,
clamped at the first row; the flag tells whether the position changed. -/
def Grid.CursorUp (g : Grid) : Grid × Bool :=
  if 0 < g.cursorPos then ({ g with cursorPos := g.cursorPos - 1 }, true) else (g, false)

/-- Modelled from the spec: `Grid.CursorDown`, absent from src/. Move the cursor down by
one, clamped at the last row; the flag tells whether the position changed. -/
def Grid.CursorDown (g : Grid) : Grid × Bool :=
  if g.cursorPos + 1 < g.rows.length then ({ g with cursorPos := g.cursorPos + 1 }, true)
  else (g, false)

/-- Modelled from the spec: `Grid.Align`, absent from src/. Re-layout of the widgets on
the terminal: rows, cursor and footer text are as before. -/
def Grid.Align (g : Grid) : Grid := g

/-- Go indexing `rows[i]`: `none` is the index-out-of-range panic. -/
def index {α : Type} (xs : List α) (i : Int) : Option α :=
  if 0 ≤ i then xs.get? i.toNat else none

/-- Modelled from the spec: `Footer.Update`, absent from src/. Rendering is an external
collaborator; the update writes the footer text only. -/
def Footer.Update (s : State) : String :=
  if s.paused then "[paused]" else ""

/-! ## Polling -/

/-- Modelled from the spec: the sort comparators. `ByID` is numeric ascending; `ByState`
is lexicographic ascending on the state label, ties broken by ascending id. The key
`"num"` selects `ByID`, as in the toggle of the `s` handler. Labels are compared
character by character. -/
def keyLE (sortKey : String) (n₁ : Int) (s₁ : String) (n₂ : Int) (s₂ : String) : Prop :=
  if sortKey = "num" then n₁ ≤ n₂ else s₁.toList < s₂.toList ∨ (s₁ = s₂ ∧ n₁ ≤ n₂)

instance (sortKey : String) (n₁ : Int) (s₁ : String) (n₂ : Int) (s₂ : String) :
    Decidable (keyLE sortKey n₁ s₁ n₂ s₂) := by
  unfold keyLE; infer_instance

/-- The comparator on the records of a poll. -/
def routineLE (sortKey : String) (a b : Routine) : Prop :=
  keyLE sortKey a.Num a.State b.Num b.State

instance (sortKey : String) : DecidableRel (routineLE sortKey) := by
  intro a b; unfold routineLE; infer_instance

/-- Modelled from the spec: `poll`, absent from src/. On a transport failure or a total
parse failure it returns the error and no records; otherwise it returns the records of
the dump, in the order of the dump. -/
def poll (fetched : Except PollError (List Routine)) : Except PollError (List Routine) :=
  match fetched with
  | .error e => .error e
  | .ok routines => .ok routines

/-! ## `Render` and `Refresh` -/

/-- `Render`: update the footer, clear the terminal, draw the grid. -/
def Render (s : State) : State :=
  { s with grid := { s.grid with footer := Footer.Update s }, frames := s.frames + 1 }

/-- The body of the `for _, r := range routines` loop of `Refresh` (lines 38 to 44).
`r.Trace[0]` panics on an empty trace. -/
def refreshRow (wm : WidgetMap) (g : Grid) (r : Routine) : Option (WidgetMap × Grid) :=
  let (wm₁, w) := WidgetMap.MustGet wm r.Num
  let w := w.SetState r.State
  match r.Trace with
  | [] => none
  | d :: rest =>
    let w := { w with desc := d }
    let w := w.SetTrace (r.State :: rest)
    some (WidgetMap.store wm₁ r.Num w, g.AddRow r.Num)

/-- The loop of `Refresh` over the records of the poll. -/
def refreshRows : List Routine → WidgetMap → Grid → Option (WidgetMap × Grid)
  | [], wm, g => some (wm, g)
  | r :: rs, wm, g =>
    match refreshRow wm g r with
    | none => none
    | some (wm₁, g₁) => refreshRows rs wm₁ g₁

/-- `Refresh` (lines 32 to 50). `fetched` is what the endpoint delivers to `poll`,
`now` the value of `time.Now()`. -/
def Refresh (s : State) (fetched : Except PollError (List Routine)) (now : Int) :
    Option State :=
  match poll fetched with
  | .ok routines =>
    match refreshRows routines s.wmap s.grid.Clear with
    | none => none
    | some (wm, g) => some (Render { s with wmap := wm, grid := g, lastRefresh := now })
  | .error _ => some (Render s)

/-! ## `TraceDialog` and the handlers of `Display` -/

/-- `TraceDialog` (lines 58 to 71): the list drawn full-screen is
`grid.rows[grid.cursorPos].trace.Items`. The result is the state after the drawing
together with the items drawn; `none` is the panic of the index expression. -/
def TraceDialog (s : State) : Option (State × List String) :=
  match index s.grid.rows s.grid.cursorPos with
  | none => none
  | some p =>
    match WidgetMap.Get s.wmap p with
    | none => none
    | some w => some ({ s with frames := s.frames + 1 }, w.trace)

/-- The `enter` handler of `Display` (lines 134 to 139), bound to enter and `o`. -/
def enterHandler (s : State) : Option State :=
  if s.paused then
    match index s.grid.rows s.grid.cursorPos with
    | none => none
    | some p =>
      match WidgetMap.Get s.wmap p with
      | none => none
      | some w => some (Render { s with wmap := WidgetMap.store s.wmap p w.ToggleShowTrace })
  else some s

/-- The toggle of the `s` handler (lines 151 to 155). -/
def toggleSortKey (sortKey : String) : String :=
  if sortKey = "num" then "state" else "num"

/-- The `s` handler of `Display` (lines 150 to 157): toggle the key, then `Refresh`. -/
def sHandler (s : State) (fetched : Except PollError (List Routine)) (now : Int) :
    Option State :=
  Refresh { s with sortKey := toggleSortKey s.sortKey } fetched now

/-- The `r` handler of `Display` (lines 146 to 148). -/
def rHandler (s : State) (fetched : Except PollError (List Routine)) (now : Int) :
    Option State :=
  Refresh s fetched now

/-- The `t` handler (lines 159 to 162) followed by the call `next()` of line 179: the
handler stores `TraceDialog` in `next` and stops the loop, `Display` then calls it. -/
def tHandler (s : State) : Option (State × List String) :=
  TraceDialog s

/-- The `p` handler (lines 141 to 144) followed by the call `next()` of line 179. -/
def pHandler (s : State) : State :=
  { s with paused := !s.paused }

/-! ## The background timer of `Display` -/

/-- Line 102: `Display` starts the timer goroutine only when the interval is positive
and the display is not paused. -/
def timerStarted (intervalFlag : Int) (s : State) : Bool :=
  decide (0 < intervalFlag) && !s.paused

/-- The largest `time.Duration`, `1<<63 - 1` nanoseconds. -/
def maxDuration : Int := 9223372036854775807

/-- The smallest `time.Duration`, `-1 << 63` nanoseconds. -/
def minDuration : Int := -9223372036854775808

/-- `time.Since(t)` at time `now`: the difference in nanoseconds, saturated to the range
of `time.Duration`. -/
def Since (t now : Int) : Int := max minDuration (min maxDuration (now - t))

/-- The nearest integer, ties to the even one. -/
def roundHalfEven (y : ℚ) : ℤ :=
  if y - ⌊y⌋ < 1 / 2 then ⌊y⌋
  else if 1 / 2 < y - ⌊y⌋ then ⌊y⌋ + 1
  else if ⌊y⌋ % 2 = 0 then ⌊y⌋ else ⌊y⌋ + 1

/-- The binary exponent of the `float64` binade of `x`: the `e` with
`2 ^ e ≤ |x| < 2 ^ (e + 1)`, and `-1022` for zero and the subnormal range. -/
def binade (x : ℚ) : ℤ := if x = 0 then -1022 else max (Int.log 2 |x|) (-1022)

/-- The spacing of the `float64` numbers in the binade of `x` (52 fraction bits). -/
def ulp (x : ℚ) : ℚ := (2 : ℚ) ^ (binade x - 52)

/-- Rounding of a rational to the nearest `float64`, ties to even. (Overflow to infinity
is not represented; the values rounded here are below `2 ^ 64`.) -/
def float64 (x : ℚ) : ℚ := roundHalfEven (x / ulp x) * ulp x

/-- `Duration.Seconds` of the Go library:
`sec := d / Second; nsec := d % Second; return float64(sec) + float64(nsec)/1e9`,
with the truncating division and remainder of Go. -/
def Duration.Seconds (d : Int) : ℚ :=
  float64 (float64 (Int.tdiv d 1000000000)
    + float64 (float64 (Int.tmod d 1000000000) / 1000000000))

/-- The Go conversion `int(f)` of a `float64`: truncation toward zero. -/
def intOfFloat (x : ℚ) : Int := if 0 ≤ x then ⌊x⌋ else ⌈x⌉

/-- The guard of line 109 at time `now`:
`int(time.Since(lastRefresh).Seconds()) >= *intervalFlag`. -/
def refreshDue (intervalFlag : Int) (s : State) (now : Int) : Bool :=
  decide (intervalFlag ≤ intOfFloat (Duration.Seconds (Since s.lastRefresh now)))

/-- One wake of the timer goroutine (lines 108 to 111), at time `now`. -/
def timerWake (intervalFlag : Int) (s : State)
    (fetched : Except PollError (List Routine)) (now : Int) : Option State :=
  if refreshDue intervalFlag s now then Refresh s fetched now else some s

/-! ## The loop of `Display` -/

/-- The `resize` handler (lines 117 to 120): `grid.Align()` then `Render()`. -/
def resizeHandler (s : State) : State :=
  Render { s with grid := s.grid.Align }

/-- The `up` handler (lines 122 to 126): render only when the cursor moved. -/
def upHandler (s : State) : State :=
  match s.grid.CursorUp with
  | (g, true) => Render { s with grid := g }
  | (g, false) => { s with grid := g }

/-- The `down` handler (lines 128 to 132): render only when the cursor moved. -/
def downHandler (s : State) : State :=
  match s.grid.CursorDown with
  | (g, true) => Render { s with grid := g }
  | (g, false) => { s with grid := g }

/-- The events that the loop of one call of `Display` processes without leaving it: a
wake of the timer goroutine and the keys handled in place. (The keys `p`, `t`, help and
exit stop the loop.) A poll made by the event comes with what the endpoint delivers and
the time of the call. -/
inductive LoopEvent where
  | wake (fetched : Except PollError (List Routine)) (now : Int)
  | resize
  | up
  | down
  | enter
  | refresh (fetched : Except PollError (List Routine)) (now : Int)
  | sort (fetched : Except PollError (List Routine)) (now : Int)

/-- One event of the loop of `Display`. `timer` tells whether this call of `Display`
started the timer goroutine at line 102; without the goroutine nothing wakes, and the
passing of the time of a wake changes nothing. -/
def Display.handle (intervalFlag : Int) (timer : Bool) (s : State) :
    LoopEvent → Option State
  | .wake fetched now => if timer then timerWake intervalFlag s fetched now else some s
  | .resize => some (resizeHandler s)
  | .up => some (upHandler s)
  | .down => some (downHandler s)
  | .enter => enterHandler s
  | .refresh fetched now => rHandler s fetched now
  | .sort fetched now => sHandler s fetched now

/-- The events of one loop, in the order in which they are processed. -/
def Display.loop (intervalFlag : Int) (timer : Bool) :
    State → List LoopEvent → Option State
  | s, [] => some s
  | s, e :: rest =>
    match Display.handle intervalFlag timer s e with
    | none => none
    | some s₁ => Display.loop intervalFlag timer s₁ rest

/-- One call of `Display` up to the stop of its loop: the timer goroutine is started or
not on entry (line 102), the grid is aligned and rendered (lines 173 and 174), then the
loop runs. -/
def Display.run (intervalFlag : Int) (s : State) (events : List LoopEvent) :
    Option State :=
  Display.loop intervalFlag (timerStarted intervalFlag s) (resizeHandler s) events

/-- A run of refreshes, each with what the endpoint delivers and the time of the call. -/
def refreshAll : State → List (Except PollError (List Routine) × Int) → Option State
  | s, [] => some s
  | s, (fetched, now) :: rest =>
    match Refresh s fetched now with
    | none => none
    | some s₁ => refreshAll s₁ rest

/-- The rows are ordered by the sort key: each row's widget compares below the widgets
of the rows after it, by the comparator of the key. -/
def rowLE (sortKey : String) (wm : WidgetMap) (i j : Int) : Prop :=
  match WidgetMap.Get wm i, WidgetMap.Get wm j with
  | some a, some b => keyLE sortKey i a.state j b.state
  | _, _ => False

/-- The widget that the loop body leaves in the cache for the record `r`. -/
def refreshed (wm : WidgetMap) (r : Routine) (d : String) (rest : List String) :
    RoutineWidget :=
  { (WidgetMap.MustGet wm r.Num).2 with state := r.State, desc := d, trace := r.State :: rest }

/-! ## Sample states and polls -/

/-- A dashboard before its first successful poll: empty cache, empty grid. -/
def startState : State :=
  { wmap := [], grid := { rows := [], cursorPos := 0, footer := "" }, paused := false,
    lastRefresh := 0, sortKey := "num", frames := 0 }

/-- The same dashboard, paused. -/
def pausedStart : State := { startState with paused := true }

/-- The three records of the scenario of the specification. -/
def sampleRoutines : List Routine :=
  [ { Num := 5, State := "running", Trace := ["main.work()", "main.go:10"] },
    { Num := 3, State := "select", Trace := ["main.wait()"] },
    { Num := 9, State := "chan receive", Trace := ["main.recv()"] } ]

/-- The dashboard `startState` after a successful poll of `sampleRoutines` at time `t`. -/
def startShown (t : Int) : State :=
  { wmap := [(5, { num := 5, state := "running", desc := "main.work()",
                   trace := ["running", "main.go:10"], showTrace := false }),
             (3, { num := 3, state := "select", desc := "main.wait()",
                   trace := ["select"], showTrace := false }),
             (9, { num := 9, state := "chan receive", desc := "main.recv()",
                   trace := ["chan receive"], showTrace := false })],
    grid := { rows := [5, 3, 9], cursorPos := 0, footer := "" }, paused := false,
    lastRefresh := t, sortKey := "num", frames := 1 }

/-- The records of `sampleRoutines` in the order of their ids. -/
def sampleById : List Routine :=
  [ { Num := 3, State := "select", Trace := ["main.wait()"] },
    { Num := 5, State := "running", Trace := ["main.work()", "main.go:10"] },
    { Num := 9, State := "chan receive", Trace := ["main.recv()"] } ]

/-- A record whose header parsed and that has no frame line. -/
def bareRoutine : Routine := { Num := 1, State := "running", Trace := [] }

/-- A paused dashboard showing goroutines 3 and 5, the cursor on the second row. -/
def pausedTwoRows : State :=
  { wmap := [(3, { num := 3, state := "select", desc := "main.wait()", trace := ["select"],
                   showTrace := false }),
             (5, { num := 5, state := "running", desc := "main.work()",
                   trace := ["running", "main.go:10"], showTrace := false })],
    grid := { rows := [3, 5], cursorPos := 1, footer := "[paused]" }, paused := true,
    lastRefresh := 0, sortKey := "num", frames := 1 }

/-- A dashboard whose cache holds an expanded widget for goroutine 7. -/
def expandedSeven : State :=
  { wmap := [(7, { num := 7, state := "running", desc := "main.work()",
                   trace := ["running"], showTrace := true })],
    grid := { rows := [7], cursorPos := 0, footer := "" }, paused := false,
    lastRefresh := 0, sortKey := "num", frames := 1 }

/-- A successful poll that does not contain goroutine 7. -/
def pollWithoutSeven : Except PollError (List Routine) :=
  .ok [{ Num := 1, State := "select", Trace := ["main.wait()"] }]

/-- A successful poll that contains goroutine 7. -/
def pollWithSeven : Except PollError (List Routine) :=
  .ok [{ Num := 7, State := "select", Trace := ["main.wait()"] }]

/-- The dashboard `expandedSeven` after three successful polls without goroutine 7 and
a fourth one with it, at times 1 to 4. -/
def sevenAfterFourPolls : State :=
  { wmap := [(7, { num := 7, state := "select", desc := "main.wait()",
                   trace := ["select"], showTrace := true }),
             (1, { num := 1, state := "select", desc := "main.wait()",
                   trace := ["select"], showTrace := false })],
    grid := { rows := [7], cursorPos := 0, footer := "" }, paused := false,
    lastRefresh := 4, sortKey := "num", frames := 5 }

/-! ## Basic facts about the widget map -/

theorem Get_store (wm : WidgetMap) (n m : Int) (w : RoutineWidget) :
    WidgetMap.Get (WidgetMap.store wm n w) m
      = if n = m then some w else WidgetMap.Get wm m := by
  induction wm with
  | nil => simp [WidgetMap.store, WidgetMap.Get]
  | cons kv rest ih =>
    obtain ⟨k, v⟩ := kv
    by_cases hk : k = n
    · subst hk
      by_cases hm : k = m <;> simp [WidgetMap.store, WidgetMap.Get, hm]
    · by_cases hm : k = m
      · subst hm
        have : ¬ n = k := fun h => hk h.symm
        simp [WidgetMap.store, WidgetMap.Get, hk, this]
      · simp [WidgetMap.store, WidgetMap.Get, hk, hm, ih]

theorem keys_store_extends (wm : WidgetMap) (n : Int) (w : RoutineWidget) :
    WidgetMap.keys wm <+: WidgetMap.keys (WidgetMap.store wm n w) := by
  induction wm with
  | nil => simp [WidgetMap.keys]
  | cons kv rest ih =>
    obtain ⟨k, v⟩ := kv
    by_cases hk : k = n
    · simp [WidgetMap.store, WidgetMap.keys, hk]
    · simp only [WidgetMap.store, hk, if_false, WidgetMap.keys, List.map_cons]
      exact (List.prefix_cons_inj k).2 ih

/-! ## The loop of `Refresh` -/

theorem refreshRow_eq (wm : WidgetMap) (g : Grid) (r : Routine) (d : String)
    (rest : List String) (h : r.Trace = d :: rest) :
    refreshRow wm g r
      = some (WidgetMap.store (WidgetMap.MustGet wm r.Num).1 r.Num (refreshed wm r d rest),
          g.AddRow r.Num) := by
  simp [refreshRow, h, refreshed, RoutineWidget.SetState, RoutineWidget.SetTrace]

theorem refreshRow_none (wm : WidgetMap) (g : Grid) (r : Routine) (h : r.Trace = []) :
    refreshRow wm g r = none := by
  simp [refreshRow, h]

theorem MustGet_fst_Get (wm : WidgetMap) (n m : Int) (h : n ≠ m) :
    WidgetMap.Get (WidgetMap.MustGet wm n).1 m = WidgetMap.Get wm m := by
  unfold WidgetMap.MustGet
  cases hg : WidgetMap.Get wm n with
  | none => simp [Get_store, h]
  | some w => simp

theorem MustGet_showTrace (wm : WidgetMap) (n : Int) (w : RoutineWidget)
    (h : WidgetMap.Get wm n = some w) : (WidgetMap.MustGet wm n).2 = w := by
  simp [WidgetMap.MustGet, h]

theorem MustGet_keys_extends (wm : WidgetMap) (n : Int) :
    WidgetMap.keys wm <+: WidgetMap.keys (WidgetMap.MustGet wm n).1 := by
  unfold WidgetMap.MustGet
  cases hg : WidgetMap.Get wm n with
  | none => exact keys_store_extends wm n _
  | some w => exact List.prefix_refl _

theorem refreshRow_some (wm wm' : WidgetMap) (g g' : Grid) (r : Routine)
    (h : refreshRow wm g r = some (wm', g')) :
    ∃ d rest, r.Trace = d :: rest ∧
      wm' = WidgetMap.store (WidgetMap.MustGet wm r.Num).1 r.Num (refreshed wm r d rest) ∧
      g' = g.AddRow r.Num := by
  cases ht : r.Trace with
  | nil => rw [refreshRow_none wm g r ht] at h; cases h
  | cons d rest =>
    rw [refreshRow_eq wm g r d rest ht] at h
    simp only [Option.some.injEq, Prod.mk.injEq] at h
    exact ⟨d, rest, rfl, h.1.symm, h.2.symm⟩

theorem refreshRow_Get_other (wm wm' : WidgetMap) (g g' : Grid) (r : Routine) (m : Int)
    (h : refreshRow wm g r = some (wm', g')) (hm : r.Num ≠ m) :
    WidgetMap.Get wm' m = WidgetMap.Get wm m := by
  obtain ⟨d, rest, _, hw, _⟩ := refreshRow_some wm wm' g g' r h
  rw [hw, Get_store, if_neg hm, MustGet_fst_Get wm r.Num m hm]

theorem refreshRow_Get_self (wm wm' : WidgetMap) (g g' : Grid) (r : Routine)
    (h : refreshRow wm g r = some (wm', g')) :
    ∃ w, WidgetMap.Get wm' r.Num = some w ∧ w.state = r.State ∧
      w.showTrace = (WidgetMap.MustGet wm r.Num).2.showTrace ∧
      w.num = (WidgetMap.MustGet wm r.Num).2.num ∧
      some w.desc = r.Trace.head? ∧ w.trace = r.State :: r.Trace.tail := by
  obtain ⟨d, rest, ht, hw, _⟩ := refreshRow_some wm wm' g g' r h
  refine ⟨refreshed wm r d rest, ?_, rfl, rfl, rfl, ?_, ?_⟩
  · rw [hw, Get_store, if_pos rfl]
  · simp [refreshed, ht]
  · simp [refreshed, ht]

theorem refreshRow_showTrace (wm wm' : WidgetMap) (g g' : Grid) (r : Routine) (m : Int)
    (w : RoutineWidget) (h : refreshRow wm g r = some (wm', g'))
    (hg : WidgetMap.Get wm m = some w) :
    ∃ w', WidgetMap.Get wm' m = some w' ∧ w'.showTrace = w.showTrace ∧ w'.num = w.num := by
  by_cases hm : r.Num = m
  · obtain ⟨w', hw', _, hs, hn, _⟩ := refreshRow_Get_self wm wm' g g' r h
    subst hm
    exact ⟨w', hw', by rw [hs, MustGet_showTrace wm r.Num w hg],
      by rw [hn, MustGet_showTrace wm r.Num w hg]⟩
  · exact ⟨w, by rw [refreshRow_Get_other wm wm' g g' r m h hm, hg], rfl, rfl⟩

theorem refreshRow_keys_extends (wm wm' : WidgetMap) (g g' : Grid) (r : Routine)
    (h : refreshRow wm g r = some (wm', g')) :
    WidgetMap.keys wm <+: WidgetMap.keys wm' := by
  obtain ⟨d, rest, _, hw, _⟩ := refreshRow_some wm wm' g g' r h
  rw [hw]
  exact (MustGet_keys_extends wm r.Num).trans (keys_store_extends _ _ _)

theorem refreshRows_complete (rs : List Routine) (hrs : ∀ r ∈ rs, r.Trace ≠ []) :
    ∀ (wm : WidgetMap) (g : Grid), ∃ wm' g', refreshRows rs wm g = some (wm', g') := by
  induction rs with
  | nil => intro wm g; exact ⟨wm, g, rfl⟩
  | cons r rs ih =>
    intro wm g
    cases ht : r.Trace with
    | nil => exact absurd ht (hrs r (List.mem_cons_self _ _))
    | cons d rest =>
      simp only [refreshRows, refreshRow_eq wm g r d rest ht]
      exact ih (fun x hx => hrs x (List.mem_cons_of_mem _ hx)) _ _

theorem refreshRows_fault (rs : List Routine) (hrs : ∃ r ∈ rs, r.Trace = []) :
    ∀ (wm : WidgetMap) (g : Grid), refreshRows rs wm g = none := by
  induction rs with
  | nil => obtain ⟨r, hr, _⟩ := hrs; cases hr
  | cons r rs ih =>
    intro wm g
    cases hrow : refreshRow wm g r with
    | none => simp [refreshRows, hrow]
    | some p =>
      obtain ⟨wm₁, g₁⟩ := p
      simp only [refreshRows, hrow]
      obtain ⟨x, hx, hxt⟩ := hrs
      rcases List.mem_cons.1 hx with rfl | hx'
      · rw [refreshRow_none wm g x hxt] at hrow; cases hrow
      · exact ih ⟨x, hx', hxt⟩ wm₁ g₁

theorem refreshRows_grid (rs : List Routine) :
    ∀ (wm wm' : WidgetMap) (g g' : Grid), refreshRows rs wm g = some (wm', g') →
      g'.rows = g.rows ++ rs.map Routine.Num ∧ g'.cursorPos = g.cursorPos ∧
        g'.footer = g.footer := by
  induction rs with
  | nil =>
    intro wm wm' g g' h
    simp only [refreshRows, Option.some.injEq, Prod.mk.injEq] at h
    simp [← h.2]
  | cons r rs ih =>
    intro wm wm' g g' h
    cases hrow : refreshRow wm g r with
    | none => simp [refreshRows, hrow] at h
    | some p =>
      obtain ⟨wm₁, g₁⟩ := p
      simp only [refreshRows, hrow] at h
      obtain ⟨_, _, _, _, hg₁⟩ := refreshRow_some wm wm₁ g g₁ r hrow
      obtain ⟨h₁, h₂, h₃⟩ := ih wm₁ wm' g₁ g' h
      subst hg₁
      simp [h₁, h₂, h₃, Grid.AddRow]

theorem refreshRows_showTrace (rs : List Routine) :
    ∀ (wm wm' : WidgetMap) (g g' : Grid), refreshRows rs wm g = some (wm', g') →
      ∀ (m : Int) (w : RoutineWidget), WidgetMap.Get wm m = some w →
        ∃ w', WidgetMap.Get wm' m = some w' ∧ w'.showTrace = w.showTrace ∧
          w'.num = w.num := by
  induction rs with
  | nil =>
    intro wm wm' g g' h m w hw
    simp only [refreshRows, Option.some.injEq, Prod.mk.injEq] at h
    exact ⟨w, by rw [← h.1, hw], rfl, rfl⟩
  | cons r rs ih =>
    intro wm wm' g g' h m w hw
    cases hrow : refreshRow wm g r with
    | none => simp [refreshRows, hrow] at h
    | some p =>
      obtain ⟨wm₁, g₁⟩ := p
      simp only [refreshRows, hrow] at h
      obtain ⟨w₁, hw₁, hs₁, hn₁⟩ := refreshRow_showTrace wm wm₁ g g₁ r m w hrow hw
      obtain ⟨w', hw', hs', hn'⟩ := ih wm₁ wm' g₁ g' h m w₁ hw₁
      exact ⟨w', hw', hs'.trans hs₁, hn'.trans hn₁⟩

theorem refreshRows_keys_extends (rs : List Routine) :
    ∀ (wm wm' : WidgetMap) (g g' : Grid), refreshRows rs wm g = some (wm', g') →
      WidgetMap.keys wm <+: WidgetMap.keys wm' := by
  induction rs with
  | nil =>
    intro wm wm' g g' h
    simp only [refreshRows, Option.some.injEq, Prod.mk.injEq] at h
    rw [h.1]
  | cons r rs ih =>
    intro wm wm' g g' h
    cases hrow : refreshRow wm g r with
    | none => simp [refreshRows, hrow] at h
    | some p =>
      obtain ⟨wm₁, g₁⟩ := p
      simp only [refreshRows, hrow] at h
      exact (refreshRow_keys_extends wm wm₁ g g₁ r hrow).trans (ih wm₁ wm' g₁ g' h)

theorem refreshRows_Get_other (rs : List Routine) :
    ∀ (wm wm' : WidgetMap) (g g' : Grid), refreshRows rs wm g = some (wm', g') →
      ∀ m : Int, m ∉ rs.map Routine.Num → WidgetMap.Get wm' m = WidgetMap.Get wm m := by
  induction rs with
  | nil =>
    intro wm wm' g g' h m _
    simp only [refreshRows, Option.some.injEq, Prod.mk.injEq] at h
    rw [h.1]
  | cons r rs ih =>
    intro wm wm' g g' h m hm
    cases hrow : refreshRow wm g r with
    | none => simp [refreshRows, hrow] at h
    | some p =>
      obtain ⟨wm₁, g₁⟩ := p
      simp only [refreshRows, hrow] at h
      simp only [List.map_cons, List.mem_cons, not_or] at hm
      rw [ih wm₁ wm' g₁ g' h m hm.2]
      exact refreshRow_Get_other wm wm₁ g g₁ r m hrow (fun e => hm.1 e.symm)

theorem refreshRows_state (rs : List Routine) (hnd : (rs.map Routine.Num).Nodup) :
    ∀ (wm wm' : WidgetMap) (g g' : Grid), refreshRows rs wm g = some (wm', g') →
      ∀ r ∈ rs, ∃ w, WidgetMap.Get wm' r.Num = some w ∧ w.state = r.State ∧
        some w.desc = r.Trace.head? ∧ w.trace = r.State :: r.Trace.tail := by
  induction rs with
  | nil => intro wm wm' g g' _ r hr; cases hr
  | cons x rs ih =>
    intro wm wm' g g' h r hr
    cases hrow : refreshRow wm g x with
    | none => simp [refreshRows, hrow] at h
    | some p =>
      obtain ⟨wm₁, g₁⟩ := p
      simp only [refreshRows, hrow] at h
      simp only [List.map_cons, List.nodup_cons] at hnd
      rcases List.mem_cons.1 hr with rfl | hr'
      · obtain ⟨w, hw, hs, _, _, hd, ht⟩ := refreshRow_Get_self wm wm₁ g g₁ r hrow
        exact ⟨w, by rw [refreshRows_Get_other rs wm₁ wm' g₁ g' h r.Num hnd.1, hw], hs, hd, ht⟩
      · exact ih hnd.2 wm₁ wm' g₁ g' h r hr'

theorem keys_store_of_Get (wm : WidgetMap) (n : Int) (v w : RoutineWidget)
    (h : WidgetMap.Get wm n = some v) :
    WidgetMap.keys (WidgetMap.store wm n w) = WidgetMap.keys wm := by
  induction wm with
  | nil => simp [WidgetMap.Get] at h
  | cons kv rest ih =>
    obtain ⟨k, u⟩ := kv
    by_cases hk : k = n
    · simp [WidgetMap.store, WidgetMap.keys, hk]
    · simp only [WidgetMap.Get, hk, if_false] at h
      have := ih h
      simp only [WidgetMap.keys] at this
      simp [WidgetMap.store, WidgetMap.keys, hk, this]

/-! ## Rounding to `float64` -/

theorem roundHalfEven_ge (y : ℚ) (n : ℤ) (h : (n : ℚ) ≤ y) : n ≤ roundHalfEven y := by
  have hf : n ≤ ⌊y⌋ := Int.le_floor.2 h
  unfold roundHalfEven
  split_ifs <;> omega

theorem roundHalfEven_le (y : ℚ) (n : ℤ) (h : y ≤ (n : ℚ)) : roundHalfEven y ≤ n := by
  have hf : (⌊y⌋ : ℚ) ≤ y := Int.floor_le y
  have hfn : ⌊y⌋ ≤ n := by exact_mod_cast hf.trans h
  unfold roundHalfEven
  by_cases h1 : y - ⌊y⌋ < 1 / 2
  · simp only [h1, if_true]; exact hfn
  · have hlt : ⌊y⌋ < n := by
      have : (⌊y⌋ : ℚ) < n := by linarith [not_lt.1 h1]
      exact_mod_cast this
    split_ifs <;> omega

theorem roundHalfEven_near (y : ℚ) :
    (roundHalfEven y : ℚ) ≤ y + 1 / 2 ∧ y - 1 / 2 ≤ (roundHalfEven y : ℚ) := by
  have hf : (⌊y⌋ : ℚ) ≤ y := Int.floor_le y
  have hc : y < (⌊y⌋ : ℚ) + 1 := Int.lt_floor_add_one y
  unfold roundHalfEven
  by_cases h1 : y - ⌊y⌋ < 1 / 2
  · simp only [h1, if_true]
    constructor <;> linarith
  · by_cases h2 : 1 / 2 < y - ⌊y⌋
    · simp only [h1, h2, if_true, if_false]
      push_cast
      constructor <;> linarith
    · have he : y - ⌊y⌋ = 1 / 2 := le_antisymm (not_lt.1 h2) (not_lt.1 h1)
      simp only [h1, h2, if_false]
      split_ifs
      · constructor <;> linarith
      · push_cast
        constructor <;> linarith

theorem ulp_pos (x : ℚ) : 0 < ulp x := by
  unfold ulp; positivity

theorem binade_lt (x : ℚ) (k : ℤ) (hk : -1022 < k) (h : |x| < (2 : ℚ) ^ k) : binade x < k := by
  unfold binade
  by_cases hx : x = 0
  · simp only [hx, if_true]; exact hk
  · simp only [hx, if_false]
    have hpos : 0 < |x| := abs_pos.2 hx
    have : Int.log 2 |x| < k := by
      have := (Int.lt_zpow_iff_log_lt (R := ℚ) (b := 2) (by norm_num) hpos (x := k)).1
        (by exact_mod_cast h)
      exact this
    exact max_lt this hk

theorem binade_ge (x : ℚ) (k : ℤ) (h : (2 : ℚ) ^ k ≤ |x|) : k ≤ binade x := by
  have hpos : 0 < |x| := lt_of_lt_of_le (by positivity) h
  have hx : x ≠ 0 := abs_pos.1 hpos
  unfold binade
  simp only [hx, if_false]
  have := (Int.zpow_le_iff_le_log (R := ℚ) (b := 2) (by norm_num) hpos (x := k)).1
    (by exact_mod_cast h)
  exact le_max_of_le_left this

theorem ulp_le (x : ℚ) (k : ℤ) (hk : -1022 < k) (h : |x| < (2 : ℚ) ^ k) :
    ulp x ≤ (2 : ℚ) ^ (k - 53) := by
  unfold ulp
  apply zpow_le_zpow_right₀ (by norm_num)
  have := binade_lt x k hk h
  omega

theorem float64_near (x : ℚ) :
    float64 x ≤ x + ulp x / 2 ∧ x - ulp x / 2 ≤ float64 x := by
  have hu := ulp_pos x
  obtain ⟨h1, h2⟩ := roundHalfEven_near (x / ulp x)
  have hx : x / ulp x * ulp x = x := div_mul_cancel₀ x hu.ne'
  unfold float64
  constructor
  · have := mul_le_mul_of_nonneg_right h1 hu.le
    rw [add_mul, hx] at this
    linarith
  · have := mul_le_mul_of_nonneg_right h2 hu.le
    rw [sub_mul, hx] at this
    linarith

/-- An integer is a whole multiple of the unit in the last place of any `x` below `2 ^ 53`. -/
theorem int_div_ulp (x : ℚ) (n : ℤ) (hb : binade x ≤ 52) :
    ∃ m : ℤ, (n : ℚ) / ulp x = m ∧ (m : ℚ) * ulp x = n := by
  have hu := ulp_pos x
  refine ⟨n * 2 ^ (52 - binade x).toNat, ?_, ?_⟩
  · unfold ulp
    have he : binade x - 52 = -((52 - binade x).toNat : ℤ) := by
      rw [Int.toNat_of_nonneg (by omega)]; ring
    rw [he, zpow_neg, zpow_natCast, div_inv_eq_mul]
    push_cast
    ring
  · unfold ulp
    have he : binade x - 52 = -((52 - binade x).toNat : ℤ) := by
      rw [Int.toNat_of_nonneg (by omega)]; ring
    rw [he, zpow_neg, zpow_natCast]
    push_cast
    field_simp

theorem float64_ge_int (x : ℚ) (n : ℤ) (hb : binade x ≤ 52) (h : (n : ℚ) ≤ x) :
    (n : ℚ) ≤ float64 x := by
  have hu := ulp_pos x
  obtain ⟨m, hm, hm'⟩ := int_div_ulp x n hb
  have h1 : (m : ℚ) ≤ x / ulp x := by
    rw [← hm]; exact div_le_div_of_nonneg_right h hu.le
  have h2 := roundHalfEven_ge _ m h1
  unfold float64
  rw [← hm']
  exact mul_le_mul_of_nonneg_right (by exact_mod_cast h2) hu.le

theorem float64_le_int (x : ℚ) (n : ℤ) (hb : binade x ≤ 52) (h : x ≤ (n : ℚ)) :
    float64 x ≤ (n : ℚ) := by
  have hu := ulp_pos x
  obtain ⟨m, hm, hm'⟩ := int_div_ulp x n hb
  have h1 : x / ulp x ≤ (m : ℚ) := by
    rw [← hm]; exact div_le_div_of_nonneg_right h hu.le
  have h2 := roundHalfEven_le _ m h1
  unfold float64
  rw [← hm']
  exact mul_le_mul_of_nonneg_right (by exact_mod_cast h2) hu.le

theorem float64_int (n : ℤ) (h : |(n : ℚ)| < (2 : ℚ) ^ (53 : ℤ)) : float64 (n : ℚ) = n := by
  have hb : binade (n : ℚ) ≤ 52 := by
    have := binade_lt (n : ℚ) 53 (by norm_num) h
    omega
  exact le_antisymm (float64_le_int _ n hb le_rfl) (float64_ge_int _ n hb le_rfl)

theorem intOfFloat_bounds (x : ℚ) (n : ℤ) (hn : 0 ≤ n) (h1 : (n : ℚ) ≤ x) (h2 : x ≤ (n : ℚ) + 1) :
    n ≤ intOfFloat x ∧ intOfFloat x ≤ n + 1 := by
  have hx : (0 : ℚ) ≤ x := le_trans (by exact_mod_cast hn) h1
  unfold intOfFloat
  simp only [hx, if_true]
  refine ⟨Int.le_floor.2 h1, ?_⟩
  have : (⌊x⌋ : ℚ) ≤ ((n + 1 : ℤ) : ℚ) := by
    push_cast
    exact (Int.floor_le x).trans h2
  exact_mod_cast this

theorem intOfFloat_eq (x : ℚ) (n : ℤ) (hn : 0 ≤ n) (h1 : (n : ℚ) ≤ x) (h2 : x < (n : ℚ) + 1) :
    intOfFloat x = n := by
  have hx : (0 : ℚ) ≤ x := le_trans (by exact_mod_cast hn) h1
  unfold intOfFloat
  simp only [hx, if_true]
  exact Int.floor_eq_iff.2 ⟨h1, h2⟩

theorem intOfFloat_nonpos (x : ℚ) (h : x ≤ 0) : intOfFloat x ≤ 0 := by
  unfold intOfFloat
  split_ifs with hx
  · have : x = 0 := le_antisymm h hx
    simp [this]
  · exact Int.ceil_le.2 (by exact_mod_cast h)

/-- The sum that `Seconds` rounds, for a non-negative duration: between the whole seconds
and the whole seconds plus `0.999999999 + 2 ^ (-54)`. -/
theorem Seconds_sum_bounds (d : ℤ) (h0 : 0 ≤ d) (h1 : d < 2 ^ 63) :
    Duration.Seconds d = float64 (((d / 1000000000 : ℤ) : ℚ)
        + float64 (((d % 1000000000 : ℤ) : ℚ) / 1000000000)) ∧
      (0 : ℚ) ≤ float64 (((d % 1000000000 : ℤ) : ℚ) / 1000000000) ∧
      float64 (((d % 1000000000 : ℤ) : ℚ) / 1000000000)
        ≤ 999999999 / 1000000000 + (2 : ℚ) ^ (-54 : ℤ) := by
  have hs0 : 0 ≤ d / 1000000000 := Int.ediv_nonneg h0 (by norm_num)
  have hs1 : d / 1000000000 < 2 ^ 53 := by omega
  have hn0 : 0 ≤ d % 1000000000 := Int.emod_nonneg d (by norm_num)
  have hn1 : d % 1000000000 < 1000000000 := Int.emod_lt_of_pos d (by norm_num)
  have hsec : float64 ((d / 1000000000 : ℤ) : ℚ) = ((d / 1000000000 : ℤ) : ℚ) := by
    apply float64_int
    rw [abs_of_nonneg (by exact_mod_cast hs0)]
    have : ((d / 1000000000 : ℤ) : ℚ) < ((2 ^ 53 : ℤ) : ℚ) := by exact_mod_cast hs1
    exact lt_of_lt_of_eq this (by norm_num)
  have hnsec : float64 ((d % 1000000000 : ℤ) : ℚ) = ((d % 1000000000 : ℤ) : ℚ) := by
    apply float64_int
    rw [abs_of_nonneg (by exact_mod_cast hn0)]
    have : ((d % 1000000000 : ℤ) : ℚ) < ((1000000000 : ℤ) : ℚ) := by exact_mod_cast hn1
    have h2 : (((1000000000 : ℤ) : ℚ)) < (2 : ℚ) ^ (53 : ℤ) := by norm_num
    exact this.trans h2
  have hy0 : (0 : ℚ) ≤ ((d % 1000000000 : ℤ) : ℚ) / 1000000000 :=
    div_nonneg (by exact_mod_cast hn0) (by norm_num)
  have hy1 : ((d % 1000000000 : ℤ) : ℚ) / 1000000000 ≤ 999999999 / 1000000000 := by
    apply div_le_div_of_nonneg_right _ (by norm_num)
    have : d % 1000000000 ≤ 999999999 := by omega
    exact_mod_cast this
  have hyabs : |((d % 1000000000 : ℤ) : ℚ) / 1000000000| < (2 : ℚ) ^ (0 : ℤ) := by
    rw [abs_of_nonneg hy0]
    have : (999999999 / 1000000000 : ℚ) < (2 : ℚ) ^ (0 : ℤ) := by norm_num
    exact lt_of_le_of_lt hy1 this
  have hby := binade_lt _ 0 (by norm_num) hyabs
  have huy := ulp_le _ 0 (by norm_num) hyabs
  refine ⟨?_, ?_, ?_⟩
  · unfold Duration.Seconds
    rw [Int.tdiv_eq_ediv h0 (by norm_num), Int.tmod_eq_emod h0 (by norm_num), hsec, hnsec]
  · have := float64_ge_int (((d % 1000000000 : ℤ) : ℚ) / 1000000000) 0 (by omega)
      (by exact_mod_cast hy0)
    exact_mod_cast this
  · have h3 := (float64_near (((d % 1000000000 : ℤ) : ℚ) / 1000000000)).1
    have h4 : (2 : ℚ) ^ ((0 : ℤ) - 53) / 2 = (2 : ℚ) ^ (-54 : ℤ) := by norm_num
    linarith

theorem Seconds_nonneg (d : ℤ) (h0 : 0 ≤ d) (h1 : d < 2 ^ 63) :
    d / 1000000000 ≤ intOfFloat (Duration.Seconds d) ∧
      intOfFloat (Duration.Seconds d) ≤ d / 1000000000 + 1 := by
  obtain ⟨hS, hq0, hq1⟩ := Seconds_sum_bounds d h0 h1
  have hs0 : 0 ≤ d / 1000000000 := Int.ediv_nonneg h0 (by norm_num)
  have hs1 : d / 1000000000 < 2 ^ 34 := by omega
  set q := float64 (((d % 1000000000 : ℤ) : ℚ) / 1000000000) with hq
  set sec := d / 1000000000 with hsec
  have hsq : (0 : ℚ) ≤ (sec : ℚ) := by exact_mod_cast hs0
  have hxabs : |(sec : ℚ) + q| < (2 : ℚ) ^ (53 : ℤ) := by
    rw [abs_of_nonneg (by linarith)]
    have h2 : (sec : ℚ) < ((2 ^ 34 : ℤ) : ℚ) := by exact_mod_cast hs1
    have h3 : (2 : ℚ) ^ (-54 : ℤ) < 1 := by norm_num
    have h4 : (((2 ^ 34 : ℤ) : ℚ)) + 2 < (2 : ℚ) ^ (53 : ℤ) := by norm_num
    linarith
  have hb : binade ((sec : ℚ) + q) ≤ 52 := by
    have := binade_lt _ 53 (by norm_num) hxabs
    omega
  have hlo := float64_ge_int _ sec hb (by linarith)
  have hhi := float64_le_int ((sec : ℚ) + q) (sec + 1) hb (by
    have h3 : (2 : ℚ) ^ (-54 : ℤ) < 1 / 1000000000 := by norm_num
    push_cast
    linarith)
  rw [hS]
  exact intOfFloat_bounds _ sec hs0 hlo (by push_cast at hhi; exact hhi)

theorem Seconds_exact (d : ℤ) (h0 : 0 ≤ d) (h1 : d / 1000000000 < 2 ^ 24) :
    intOfFloat (Duration.Seconds d) = d / 1000000000 := by
  have hd : d < 2 ^ 63 := by omega
  obtain ⟨hS, hq0, hq1⟩ := Seconds_sum_bounds d h0 hd
  have hs0 : 0 ≤ d / 1000000000 := Int.ediv_nonneg h0 (by norm_num)
  set q := float64 (((d % 1000000000 : ℤ) : ℚ) / 1000000000) with hq
  set sec := d / 1000000000 with hsec
  have hsq : (0 : ℚ) ≤ (sec : ℚ) := by exact_mod_cast hs0
  have hs2 : (sec : ℚ) + 1 ≤ ((2 ^ 24 : ℤ) : ℚ) := by
    have : sec + 1 ≤ 2 ^ 24 := by omega
    exact_mod_cast this
  have h54 : (2 : ℚ) ^ (-54 : ℤ) + (2 : ℚ) ^ (-30 : ℤ) < 1 / 1000000000 := by norm_num
  have h30 : (0 : ℚ) < (2 : ℚ) ^ (-30 : ℤ) := by positivity
  have hxabs : |(sec : ℚ) + q| < (2 : ℚ) ^ (24 : ℤ) := by
    rw [abs_of_nonneg (by linarith)]
    have h4 : (((2 ^ 24 : ℤ) : ℚ)) = (2 : ℚ) ^ (24 : ℤ) := by norm_num
    linarith
  have hb : binade ((sec : ℚ) + q) ≤ 52 := by
    have := binade_lt _ 24 (by norm_num) hxabs
    omega
  have hu := ulp_le _ 24 (by norm_num) hxabs
  have hlo := float64_ge_int _ sec hb (by linarith)
  have hnear := (float64_near ((sec : ℚ) + q)).1
  have h29 : (2 : ℚ) ^ ((24 : ℤ) - 53) / 2 = (2 : ℚ) ^ (-30 : ℤ) := by norm_num
  have hu2 : ulp ((sec : ℚ) + q) / 2 ≤ (2 : ℚ) ^ (-30 : ℤ) := by
    rw [← h29]
    exact div_le_div_of_nonneg_right hu (by norm_num)
  rw [hS]
  refine intOfFloat_eq _ sec hs0 hlo ?_
  calc float64 ((sec : ℚ) + q) ≤ (sec : ℚ) + q + ulp ((sec : ℚ) + q) / 2 := hnear
    _ ≤ (sec : ℚ) + (999999999 / 1000000000 + (2 : ℚ) ^ (-54 : ℤ)) + (2 : ℚ) ^ (-30 : ℤ) := by
      linarith
    _ < (sec : ℚ) + 1 := by linarith

theorem Seconds_neg (d : ℤ) (h0 : d < 0) (h1 : -2 ^ 63 ≤ d) : intOfFloat (Duration.Seconds d) ≤ 0 := by
  have ht : Int.tdiv d 1000000000 = -((-d) / 1000000000) := by
    have h2 : Int.tdiv (-d) 1000000000 = (-d) / 1000000000 :=
      Int.tdiv_eq_ediv (by omega) (by norm_num)
    rw [Int.neg_tdiv] at h2
    omega
  have hm : Int.tmod d 1000000000 = d - 1000000000 * Int.tdiv d 1000000000 :=
    Int.tmod_def d 1000000000
  rw [ht] at hm
  have hs0 : Int.tdiv d 1000000000 ≤ 0 := by omega
  have hs1 : -(Int.tdiv d 1000000000) < 2 ^ 53 := by omega
  have hn0 : Int.tmod d 1000000000 ≤ 0 := by omega
  have hn1 : -(Int.tmod d 1000000000) < 1000000000 := by omega
  have hsecF : float64 ((Int.tdiv d 1000000000 : ℤ) : ℚ) = (Int.tdiv d 1000000000 : ℤ) := by
    apply float64_int
    rw [abs_of_nonpos (by exact_mod_cast hs0)]
    have : -((Int.tdiv d 1000000000 : ℤ) : ℚ) < ((2 ^ 53 : ℤ) : ℚ) := by exact_mod_cast hs1
    exact lt_of_lt_of_eq this (by norm_num)
  have hnsecF : float64 ((Int.tmod d 1000000000 : ℤ) : ℚ) = (Int.tmod d 1000000000 : ℤ) := by
    apply float64_int
    rw [abs_of_nonpos (by exact_mod_cast hn0)]
    have : -((Int.tmod d 1000000000 : ℤ) : ℚ) < ((1000000000 : ℤ) : ℚ) := by
      exact_mod_cast hn1
    have h2 : (((1000000000 : ℤ) : ℚ)) < (2 : ℚ) ^ (53 : ℤ) := by norm_num
    exact this.trans h2
  have hy0 : ((Int.tmod d 1000000000 : ℤ) : ℚ) / 1000000000 ≤ 0 :=
    div_nonpos_of_nonpos_of_nonneg (by exact_mod_cast hn0) (by norm_num)
  have hy1 : -1 < ((Int.tmod d 1000000000 : ℤ) : ℚ) / 1000000000 := by
    rw [lt_div_iff₀ (by norm_num)]
    have : -((Int.tmod d 1000000000 : ℤ) : ℚ) < ((1000000000 : ℤ) : ℚ) := by
      exact_mod_cast hn1
    push_cast at this
    linarith
  have hyabs : |((Int.tmod d 1000000000 : ℤ) : ℚ) / 1000000000| < (2 : ℚ) ^ (0 : ℤ) := by
    rw [abs_of_nonpos hy0, zpow_zero]
    linarith
  have hby := binade_lt _ 0 (by norm_num) hyabs
  have hq0 : float64 (((Int.tmod d 1000000000 : ℤ) : ℚ) / 1000000000) ≤ 0 := by
    have := float64_le_int (((Int.tmod d 1000000000 : ℤ) : ℚ) / 1000000000) 0 (by omega)
      (by exact_mod_cast hy0)
    exact_mod_cast this
  have huy := ulp_le _ 0 (by norm_num) hyabs
  have hq1 : -2 < float64 (((Int.tmod d 1000000000 : ℤ) : ℚ) / 1000000000) := by
    have h3 := (float64_near (((Int.tmod d 1000000000 : ℤ) : ℚ) / 1000000000)).2
    have h4 : (2 : ℚ) ^ ((0 : ℤ) - 53) / 2 < 1 := by norm_num
    have h5 : ulp (((Int.tmod d 1000000000 : ℤ) : ℚ) / 1000000000) / 2
        ≤ (2 : ℚ) ^ ((0 : ℤ) - 53) / 2 := div_le_div_of_nonneg_right huy (by norm_num)
    linarith
  have hsq : ((Int.tdiv d 1000000000 : ℤ) : ℚ) ≤ 0 := by exact_mod_cast hs0
  have hxabs : |((Int.tdiv d 1000000000 : ℤ) : ℚ)
      + float64 (((Int.tmod d 1000000000 : ℤ) : ℚ) / 1000000000)| < (2 : ℚ) ^ (53 : ℤ) := by
    rw [abs_of_nonpos (by linarith)]
    have h2 : -((Int.tdiv d 1000000000 : ℤ) : ℚ) ≤ ((9223372037 : ℤ) : ℚ) := by
      have : -(Int.tdiv d 1000000000) ≤ 9223372037 := by omega
      exact_mod_cast this
    have h4 : (((9223372037 : ℤ) : ℚ)) + 2 < (2 : ℚ) ^ (53 : ℤ) := by norm_num
    linarith
  have hb : binade (((Int.tdiv d 1000000000 : ℤ) : ℚ)
      + float64 (((Int.tmod d 1000000000 : ℤ) : ℚ) / 1000000000)) ≤ 52 := by
    have := binade_lt _ 53 (by norm_num) hxabs
    omega
  have hF := float64_le_int _ 0 hb (by push_cast; linarith)
  unfold Duration.Seconds
  rw [hsecF, hnsecF]
  exact intOfFloat_nonpos _ (by exact_mod_cast hF)

theorem ulp_ge (x : ℚ) (k : ℤ) (h : (2 : ℚ) ^ k ≤ |x|) : (2 : ℚ) ^ (k - 52) ≤ ulp x := by
  unfold ulp
  apply zpow_le_zpow_right₀ (by norm_num)
  have := binade_ge x k h
  omega

theorem float64_ge_of_near (x : ℚ) (n : ℤ) (hb : binade x ≤ 52)
    (h : (n : ℚ) - ulp x / 2 < x) : (n : ℚ) ≤ float64 x := by
  have hu := ulp_pos x
  obtain ⟨m, hm, hm'⟩ := int_div_ulp x n hb
  have h1 : (m : ℚ) - 1 / 2 < x / ulp x := by
    rw [← hm, lt_div_iff₀ hu, sub_mul, div_mul_cancel₀ _ hu.ne']
    linarith
  have h2 := (roundHalfEven_near (x / ulp x)).2
  have h3 : m ≤ roundHalfEven (x / ulp x) := by
    have : ((m : ℚ) - 1) < (roundHalfEven (x / ulp x) : ℚ) := by linarith
    have : m - 1 < roundHalfEven (x / ulp x) := by exact_mod_cast this
    omega
  unfold float64
  rw [← hm']
  exact mul_le_mul_of_nonneg_right (by exact_mod_cast h3) hu.le

theorem Seconds_round_up (d : ℤ) (h0 : 0 ≤ d) (h1 : d < 2 ^ 63)
    (hn : d % 1000000000 = 999999999) (hs : 2 ^ 24 ≤ d / 1000000000) :
    intOfFloat (Duration.Seconds d) = d / 1000000000 + 1 := by
  obtain ⟨hS, hq0, hq1⟩ := Seconds_sum_bounds d h0 h1
  obtain ⟨_, hle⟩ := Seconds_nonneg d h0 h1
  have hs1 : d / 1000000000 < 2 ^ 34 := by omega
  have hyabs : |((d % 1000000000 : ℤ) : ℚ) / 1000000000| < (2 : ℚ) ^ (0 : ℤ) := by
    rw [hn, abs_of_nonneg (by norm_num)]; norm_num
  have huy := ulp_le _ 0 (by norm_num) hyabs
  have hq2 := (float64_near (((d % 1000000000 : ℤ) : ℚ) / 1000000000)).2
  have hq3 : (999999999 / 1000000000 : ℚ) - (2 : ℚ) ^ (-54 : ℤ)
      ≤ float64 (((d % 1000000000 : ℤ) : ℚ) / 1000000000) := by
    have h4 : (2 : ℚ) ^ ((0 : ℤ) - 53) / 2 = (2 : ℚ) ^ (-54 : ℤ) := by norm_num
    have h5 : ulp (((d % 1000000000 : ℤ) : ℚ) / 1000000000) / 2
        ≤ (2 : ℚ) ^ ((0 : ℤ) - 53) / 2 := div_le_div_of_nonneg_right huy (by norm_num)
    have h6 : ((d % 1000000000 : ℤ) : ℚ) / 1000000000 = 999999999 / 1000000000 := by
      rw [hn]; norm_num
    linarith
  set q := float64 (((d % 1000000000 : ℤ) : ℚ) / 1000000000) with hq
  set sec := d / 1000000000 with hsec
  have hsq : ((2 ^ 24 : ℤ) : ℚ) ≤ (sec : ℚ) := by exact_mod_cast hs
  have h24 : (((2 ^ 24 : ℤ) : ℚ)) = (2 : ℚ) ^ (24 : ℤ) := by norm_num
  have hx0 : (0 : ℚ) ≤ (sec : ℚ) + q := by
    have : (0 : ℚ) ≤ ((2 ^ 24 : ℤ) : ℚ) := by norm_num
    linarith
  have hxabs : |(sec : ℚ) + q| < (2 : ℚ) ^ (53 : ℤ) := by
    rw [abs_of_nonneg hx0]
    have h2 : (sec : ℚ) < ((2 ^ 34 : ℤ) : ℚ) := by exact_mod_cast hs1
    have h3 : (2 : ℚ) ^ (-54 : ℤ) < 1 := by norm_num
    have h4 : (((2 ^ 34 : ℤ) : ℚ)) + 2 < (2 : ℚ) ^ (53 : ℤ) := by norm_num
    linarith
  have hb : binade ((sec : ℚ) + q) ≤ 52 := by
    have := binade_lt _ 53 (by norm_num) hxabs
    omega
  have hul : (2 : ℚ) ^ ((24 : ℤ) - 52) ≤ ulp ((sec : ℚ) + q) := by
    apply ulp_ge
    rw [abs_of_nonneg hx0, ← h24]
    linarith
  have h28 : (1 / 1000000000 : ℚ) + (2 : ℚ) ^ (-54 : ℤ) < (2 : ℚ) ^ ((24 : ℤ) - 52) / 2 := by
    norm_num
  have hup := float64_ge_of_near ((sec : ℚ) + q) (sec + 1) hb (by
    push_cast
    have : (2 : ℚ) ^ ((24 : ℤ) - 52) / 2 ≤ ulp ((sec : ℚ) + q) / 2 :=
      div_le_div_of_nonneg_right hul (by norm_num)
    linarith)
  have hge : sec + 1 ≤ intOfFloat (Duration.Seconds d) := by
    rw [hS]
    unfold intOfFloat
    have hF0 : (0 : ℚ) ≤ float64 ((sec : ℚ) + q) := by
      have : (0 : ℚ) ≤ ((sec + 1 : ℤ) : ℚ) := by push_cast; linarith
      exact this.trans hup
    simp only [hF0, if_true]
    exact Int.le_floor.2 hup
  omega

/-! ## `poll` and `Refresh` -/

theorem poll_ok (fetched : Except PollError (List Routine)) (routines : List Routine)
    (h : poll fetched = .ok routines) : fetched = .ok routines := by
  cases fetched with
  | error e => simp [poll] at h
  | ok rs =>
    simp only [poll, Except.ok.injEq] at h
    rw [h]

theorem poll_error (fetched : Except PollError (List Routine)) (e : PollError)
    (h : poll fetched = .error e) : fetched = .error e := by
  cases fetched with
  | error e' =>
    simp only [poll, Except.error.injEq] at h
    rw [h]
  | ok rs => simp [poll] at h

theorem Refresh_error (s : State) (e : PollError) (now : Int) :
    Refresh s (.error e) now = some (Render s) := by
  simp [Refresh, poll]

theorem Refresh_ok (s : State) (rs : List Routine) (now : Int) (wm : WidgetMap) (g : Grid)
    (h : refreshRows rs s.wmap s.grid.Clear = some (wm, g)) :
    Refresh s (.ok rs) now
      = some (Render { s with wmap := wm, grid := g, lastRefresh := now }) := by
  simp [Refresh, poll, h]

theorem Refresh_ok_inv (s s' : State) (rs : List Routine) (now : Int)
    (h : Refresh s (.ok rs) now = some s') :
    ∃ wm g, refreshRows rs s.wmap s.grid.Clear = some (wm, g) ∧
      s' = Render { s with wmap := wm, grid := g, lastRefresh := now } := by
  cases hr : refreshRows rs s.wmap s.grid.Clear with
  | none => simp [Refresh, poll, hr] at h
  | some p =>
    obtain ⟨wm, g⟩ := p
    rw [Refresh_ok s rs now wm g hr] at h
    exact ⟨wm, g, rfl, (Option.some.inj h).symm⟩

theorem Refresh_ne_self (s : State) (fetched : Except PollError (List Routine)) (now : Int) :
    Refresh s fetched now ≠ some s := by
  intro h
  have hf : ∀ s', Refresh s fetched now = some s' → s'.frames = s.frames + 1 := by
    intro s' hs'
    cases fetched with
    | error e =>
      rw [Refresh_error] at hs'
      rw [← Option.some.inj hs']
      rfl
    | ok rs =>
      obtain ⟨wm, g, _, hs⟩ := Refresh_ok_inv s s' rs now hs'
      rw [hs]
      rfl
  have := hf s h
  omega

theorem Refresh_frame (s s' : State) (fetched : Except PollError (List Routine)) (now : Int)
    (h : Refresh s fetched now = some s') :
    s'.paused = s.paused ∧ s'.sortKey = s.sortKey ∧
      s'.grid.cursorPos = s.grid.cursorPos ∧ s'.frames = s.frames + 1 := by
  cases fetched with
  | error e =>
    rw [Refresh_error] at h
    rw [← Option.some.inj h]
    exact ⟨rfl, rfl, rfl, rfl⟩
  | ok rs =>
    obtain ⟨wm, g, hr, hs⟩ := Refresh_ok_inv s s' rs now h
    obtain ⟨_, hc, _⟩ := refreshRows_grid rs s.wmap wm s.grid.Clear g hr
    rw [hs]
    exact ⟨rfl, rfl, by simpa [Render, Grid.Clear] using hc, rfl⟩

theorem Refresh_showTrace (s s' : State) (fetched : Except PollError (List Routine))
    (now : Int) (h : Refresh s fetched now = some s') (m : Int) (w : RoutineWidget)
    (hw : WidgetMap.Get s.wmap m = some w) :
    ∃ w', WidgetMap.Get s'.wmap m = some w' ∧ w'.showTrace = w.showTrace ∧
      w'.num = w.num := by
  cases fetched with
  | error e =>
    rw [Refresh_error] at h
    rw [← Option.some.inj h]
    exact ⟨w, hw, rfl, rfl⟩
  | ok rs =>
    obtain ⟨wm, g, hr, hs⟩ := Refresh_ok_inv s s' rs now h
    rw [hs]
    exact refreshRows_showTrace _ s.wmap wm s.grid.Clear g hr m w hw

theorem Refresh_keys_extends (s s' : State) (fetched : Except PollError (List Routine))
    (now : Int) (h : Refresh s fetched now = some s') :
    WidgetMap.keys s.wmap <+: WidgetMap.keys s'.wmap := by
  cases fetched with
  | error e =>
    rw [Refresh_error] at h
    rw [← Option.some.inj h]
    exact List.prefix_refl _
  | ok rs =>
    obtain ⟨wm, g, hr, hs⟩ := Refresh_ok_inv s s' rs now h
    rw [hs]
    exact refreshRows_keys_extends _ s.wmap wm s.grid.Clear g hr

theorem refreshRows_traces (rs : List Routine) (wm wm' : WidgetMap) (g g' : Grid)
    (h : refreshRows rs wm g = some (wm', g')) : ∀ r ∈ rs, r.Trace ≠ [] := by
  intro r hr ht
  rw [refreshRows_fault rs ⟨r, hr, ht⟩ wm g] at h
  cases h

theorem refreshRows_cached (rs : List Routine) :
    ∀ (wm wm' : WidgetMap) (g g' : Grid), refreshRows rs wm g = some (wm', g') →
      ∀ r ∈ rs, ∃ w, WidgetMap.Get wm' r.Num = some w := by
  induction rs with
  | nil => intro wm wm' g g' _ r hr; cases hr
  | cons x rs ih =>
    intro wm wm' g g' h r hr
    cases hrow : refreshRow wm g x with
    | none => simp [refreshRows, hrow] at h
    | some p =>
      obtain ⟨wm₁, g₁⟩ := p
      simp only [refreshRows, hrow] at h
      rcases List.mem_cons.1 hr with rfl | hr'
      · obtain ⟨w, hw, _⟩ := refreshRow_Get_self wm wm₁ g g₁ r hrow
        obtain ⟨w', hw', _⟩ := refreshRows_showTrace rs wm₁ wm' g₁ g' h r.Num w hw
        exact ⟨w', hw'⟩
      · exact ih wm₁ wm' g₁ g' h r hr'

theorem Refresh_ok_rows (s : State) (rs : List Routine) (now : Int)
    (ht : ∀ r ∈ rs, r.Trace ≠ []) :
    ∃ s', Refresh s (.ok rs) now = some s' ∧
      s'.grid.rows = rs.map Routine.Num ∧
      s'.sortKey = s.sortKey ∧ s'.grid.cursorPos = s.grid.cursorPos ∧
      s'.lastRefresh = now ∧ s'.frames = s.frames + 1 ∧ s'.paused = s.paused ∧
      (∀ r ∈ rs, ∃ w, WidgetMap.Get s'.wmap r.Num = some w) ∧
      (∀ m, m ∉ rs.map Routine.Num → WidgetMap.Get s'.wmap m = WidgetMap.Get s.wmap m) ∧
      ((rs.map Routine.Num).Nodup → ∀ r ∈ rs, ∃ w, WidgetMap.Get s'.wmap r.Num = some w ∧
        w.state = r.State ∧ some w.desc = r.Trace.head? ∧
        w.trace = r.State :: r.Trace.tail) := by
  obtain ⟨wm, g, hrows⟩ := refreshRows_complete rs ht s.wmap s.grid.Clear
  obtain ⟨hg, hc, _⟩ := refreshRows_grid rs s.wmap wm s.grid.Clear g hrows
  refine ⟨_, Refresh_ok s rs now wm g hrows, ?_, rfl, ?_, rfl, rfl, rfl, ?_, ?_, ?_⟩
  · simpa [Render, Grid.Clear] using hg
  · simpa [Render, Grid.Clear] using hc
  · exact refreshRows_cached rs s.wmap wm s.grid.Clear g hrows
  · exact refreshRows_Get_other rs s.wmap wm s.grid.Clear g hrows
  · intro hnd
    exact refreshRows_state rs hnd s.wmap wm s.grid.Clear g hrows

theorem sorted_rows (sortKey : String) (wm : WidgetMap) (routines : List Routine)
    (hs : List.Sorted (routineLE sortKey) routines)
    (hw : ∀ r ∈ routines, ∃ w, WidgetMap.Get wm r.Num = some w ∧ w.state = r.State) :
    List.Sorted (rowLE sortKey wm) (routines.map Routine.Num) := by
  unfold List.Sorted at *
  rw [List.pairwise_map]
  refine List.Pairwise.imp_of_mem ?_ hs
  intro a b ha hb hab
  obtain ⟨wa, hwa, hsa⟩ := hw a ha
  obtain ⟨wb, hwb, hsb⟩ := hw b hb
  simp only [rowLE, hwa, hwb, hsa, hsb]
  exact hab

/-! ## The guard of the timer -/

theorem Since_of_nonneg (t now : Int) (h : 0 ≤ now - t) :
    Since t now = min maxDuration (now - t) ∧ 0 ≤ Since t now ∧
      Since t now < 2 ^ 63 := by
  unfold Since maxDuration minDuration
  omega

theorem Since_of_neg (t now : Int) (h : now - t < 0) :
    Since t now < 0 ∧ -2 ^ 63 ≤ Since t now := by
  unfold Since maxDuration minDuration
  omega

/-- For an interval from 1 to `2 ^ 24` seconds the guard of line 109 holds exactly when
the elapsed time is at least the interval. -/
theorem refreshDue_iff (intervalFlag : Int) (s : State) (now : Int)
    (h0 : 0 < intervalFlag) (h1 : intervalFlag ≤ 16777216) :
    refreshDue intervalFlag s now = true
      ↔ intervalFlag * 1000000000 ≤ now - s.lastRefresh := by
  simp only [refreshDue, decide_eq_true_eq]
  rcases lt_or_le (now - s.lastRefresh) 0 with hneg | hpos
  · obtain ⟨hd0, hd1⟩ := Since_of_neg s.lastRefresh now hneg
    have := Seconds_neg _ hd0 hd1
    constructor
    · intro h; omega
    · intro h; omega
  · obtain ⟨hmin, hd0, hd1⟩ := Since_of_nonneg s.lastRefresh now hpos
    obtain ⟨hlo, _⟩ := Seconds_nonneg _ hd0 hd1
    rcases lt_or_le (Since s.lastRefresh now / 1000000000) (2 ^ 24) with hs | hs
    · rw [Seconds_exact _ hd0 hs]
      unfold maxDuration at hmin
      constructor
      · intro h; omega
      · intro h; omega
    · unfold maxDuration at hmin
      constructor
      · intro _; omega
      · intro _; omega

/-! ## The loop of `Display` keeps `paused` -/

theorem handle_paused (intervalFlag : Int) (timer : Bool) (s s' : State) (e : LoopEvent)
    (h : Display.handle intervalFlag timer s e = some s') : s'.paused = s.paused := by
  cases e with
  | wake fetched now =>
    simp only [Display.handle, timerWake] at h
    split_ifs at h
    · exact (Refresh_frame s s' fetched now h).1
    · rw [← Option.some.inj h]
    · rw [← Option.some.inj h]
  | resize =>
    simp only [Display.handle, Option.some.injEq] at h
    rw [← h]; rfl
  | up =>
    simp only [Display.handle, Option.some.injEq] at h
    rw [← h]
    unfold upHandler Grid.CursorUp
    split_ifs <;> rfl
  | down =>
    simp only [Display.handle, Option.some.injEq] at h
    rw [← h]
    unfold downHandler Grid.CursorDown
    split_ifs <;> rfl
  | enter =>
    simp only [Display.handle, enterHandler] at h
    split_ifs at h
    · split at h
      · cases h
      · split at h
        · cases h
        · rw [← Option.some.inj h]; rfl
    · rw [← Option.some.inj h]
  | refresh fetched now =>
    exact (Refresh_frame s s' fetched now h).1
  | sort fetched now =>
    exact (Refresh_frame _ s' fetched now h).1

theorem loop_paused (intervalFlag : Int) (timer : Bool) (events : List LoopEvent) :
    ∀ s s', Display.loop intervalFlag timer s events = some s' → s'.paused = s.paused := by
  induction events with
  | nil =>
    intro s s' h
    simp only [Display.loop, Option.some.injEq] at h
    rw [h]
  | cons e rest ih =>
    intro s s' h
    cases he : Display.handle intervalFlag timer s e with
    | none => simp [Display.loop, he] at h
    | some s₁ =>
      simp only [Display.loop, he] at h
      rw [ih s₁ s' h, handle_paused intervalFlag timer s s₁ e he]

/-! ## The claims -/

/-- C1: when `poll` returns an error, `Refresh` completes and leaves the widget cache,
the rows of the grid, the cursor position and `lastRefresh` as they were; apart from the
footer text it only draws one more frame of the unchanged view. -/
theorem Refresh_poll_error_unchanged (s : State)
    (fetched : Except PollError (List Routine)) (e : PollError) (now : Int)
    (h : poll fetched = .error e) :
    ∃ s', Refresh s fetched now = some s' ∧ s'.wmap = s.wmap ∧
      s'.grid.rows = s.grid.rows ∧ s'.grid.cursorPos = s.grid.cursorPos ∧
      s'.lastRefresh = s.lastRefresh ∧ s'.paused = s.paused ∧ s'.sortKey = s.sortKey ∧
      s'.frames = s.frames + 1 := by
  rw [poll_error fetched e h, Refresh_error]
  exact ⟨Render s, rfl, rfl, rfl, rfl, rfl, rfl, rfl, rfl⟩

theorem Refresh_poll_error_unchanged_witness :
    poll (.error .transport) = .error .transport ∧
    ∃ s', Refresh pausedTwoRows (.error .transport) 42 = some s' ∧
      s'.wmap = pausedTwoRows.wmap ∧
      s'.grid.rows = pausedTwoRows.grid.rows ∧
      s'.grid.cursorPos = pausedTwoRows.grid.cursorPos ∧
      s'.lastRefresh = pausedTwoRows.lastRefresh ∧ s'.paused = pausedTwoRows.paused ∧
      s'.sortKey = pausedTwoRows.sortKey ∧ s'.frames = pausedTwoRows.frames + 1 :=
  ⟨rfl, Refresh_poll_error_unchanged pausedTwoRows (.error .transport) .transport 42 rfl⟩

/-- C2, as stated, fails: `Refresh` shows the records in the order in which `poll`
returned them. With the sort key `num` and a poll returning the ids 5, 3, 9 in that
order, the rows are 5, 3, 9, which is not sorted by the key. -/
theorem Refresh_rows_in_poll_order :
    ∃ s', Refresh startState (.ok sampleRoutines) 42 = some s' ∧ s'.sortKey = "num" ∧
      s'.grid.rows = [5, 3, 9] ∧ ¬ List.Sorted (rowLE s'.sortKey s'.wmap) s'.grid.rows := by
  refine ⟨startShown 42, by decide, rfl, rfl, ?_⟩
  intro h
  have h53 : rowLE "num" (startShown 42).wmap 5 3 :=
    List.rel_of_sorted_cons h 3 (by decide)
  simp [rowLE, startShown, WidgetMap.Get, keyLE] at h53

/-- C2, amended: after a `Refresh` whose poll succeeded with records that all carry a
trace line, the rows of the grid are rebuilt from the records of this poll alone: one row
per record, carrying the ids of the records in the order in which `poll` returned them,
whatever the rows were before. `Refresh` does not sort: the rows are sorted by the active
sort key when the records returned by `poll` are in the order of that key and have
distinct ids. -/
theorem Refresh_rebuilds_rows (s : State) (fetched : Except PollError (List Routine))
    (routines : List Routine) (now : Int)
    (hp : poll fetched = .ok routines)
    (ht : ∀ r ∈ routines, r.Trace ≠ []) :
    ∃ s', Refresh s fetched now = some s' ∧
      s'.grid.rows = routines.map Routine.Num ∧
      s'.grid.rows.length = routines.length ∧
      s'.sortKey = s.sortKey ∧
      (List.Sorted (routineLE s.sortKey) routines → (routines.map Routine.Num).Nodup →
        List.Sorted (rowLE s'.sortKey s'.wmap) s'.grid.rows) := by
  rw [poll_ok fetched routines hp]
  obtain ⟨s', hs', hrows, hkey, _, _, _, _, _, _, hst⟩ := Refresh_ok_rows s routines now ht
  refine ⟨s', hs', hrows, by simp [hrows], hkey, ?_⟩
  intro hsorted hnd
  rw [hrows, hkey]
  refine sorted_rows s.sortKey s'.wmap routines hsorted ?_
  intro r hr
  obtain ⟨w, hw, hstate, _⟩ := hst hnd r hr
  exact ⟨w, hw, hstate⟩

theorem Refresh_rebuilds_rows_witness :
    poll (.ok sampleById) = .ok sampleById ∧
      ∃ s', Refresh pausedTwoRows (.ok sampleById) 42 = some s' ∧
        s'.grid.rows = [3, 5, 9] ∧ s'.grid.rows.length = 3 ∧
        List.Sorted (rowLE s'.sortKey s'.wmap) s'.grid.rows :=
  ⟨rfl,
    (Refresh_rebuilds_rows pausedTwoRows (.ok sampleById) sampleById 42 rfl
      (by decide)).imp
      (fun _ h => ⟨h.1, h.2.1, h.2.2.1, h.2.2.2.2 (by decide) (by decide)⟩)⟩

/-- C3: a widget that is in the cache with `expanded = true` and whose id appears in
the records of a successful poll (all records carrying a trace) is, after `Refresh`,
still the cache entry of that id, at the same place in the cache, still has
`expanded = true`, and is shown as a row. -/
theorem Refresh_keeps_expanded (s : State) (fetched : Except PollError (List Routine))
    (routines : List Routine) (now : Int) (id : Int) (w : RoutineWidget)
    (hp : poll fetched = .ok routines)
    (ht : ∀ r ∈ routines, r.Trace ≠ [])
    (hw : WidgetMap.Get s.wmap id = some w) (he : w.showTrace = true)
    (hid : id ∈ routines.map Routine.Num) :
    ∃ s' w', Refresh s fetched now = some s' ∧ WidgetMap.Get s'.wmap id = some w' ∧
      w'.showTrace = true ∧ w'.num = w.num ∧ id ∈ s'.grid.rows ∧
      WidgetMap.keys s.wmap <+: WidgetMap.keys s'.wmap := by
  rw [poll_ok fetched routines hp]
  obtain ⟨wm, g, hrows⟩ := refreshRows_complete routines ht s.wmap s.grid.Clear
  obtain ⟨hg, _, _⟩ := refreshRows_grid routines s.wmap wm s.grid.Clear g hrows
  obtain ⟨w', hw', hs', hn'⟩ :=
    refreshRows_showTrace routines s.wmap wm s.grid.Clear g hrows id w hw
  refine ⟨_, w', Refresh_ok s routines now wm g hrows, hw', hs'.trans he, hn', ?_, ?_⟩
  · simp only [Render, hg, Grid.Clear, List.nil_append]
    exact hid
  · exact refreshRows_keys_extends routines s.wmap wm s.grid.Clear g hrows

theorem Refresh_keeps_expanded_witness :
    ∃ s' w', Refresh expandedSeven pollWithSeven 42 = some s' ∧
      WidgetMap.Get s'.wmap 7 = some w' ∧ w'.showTrace = true ∧ w'.num = 7 ∧
      7 ∈ s'.grid.rows ∧ WidgetMap.keys expandedSeven.wmap <+: WidgetMap.keys s'.wmap :=
  Refresh_keeps_expanded expandedSeven pollWithSeven
    [{ Num := 7, State := "select", Trace := ["main.wait()"] }] 42 7
    { num := 7, state := "running", desc := "main.work()", trace := ["running"],
      showTrace := true }
    (by rfl) (by decide) (by decide) rfl (by decide)

/-- C4: a successful poll that contains a record whose header parsed and whose trace
has no frame line makes `Refresh` panic at `r.Trace[0]`: no row is added for it. -/
theorem Refresh_empty_trace_panics :
    poll (.ok [bareRoutine]) = .ok [bareRoutine] ∧
      bareRoutine.Trace = [] ∧
      Refresh startState (.ok [bareRoutine]) 42 = none :=
  ⟨by rfl, by rfl, by decide⟩

/-- C5: on an empty grid the expand-toggle action (while paused) and the full-screen
trace action both evaluate `grid.rows[grid.cursorPos]` and panic with an index out of
range. -/
theorem empty_grid_row_actions_panic :
    pausedStart.grid.rows = [] ∧ pausedStart.grid.cursorPos = 0 ∧
      enterHandler pausedStart = none ∧ TraceDialog pausedStart = none ∧
      tHandler startState = none := by
  decide

/-- C6: the expand-toggle action acts exactly when `paused` is true. When `paused` is
false it returns the state as it is, without drawing. When `paused` is true and the
cursor is on a row, it flips `expanded` of the widget of that row and nothing else: every
other widget, the entries of the cache, the rows and their order, the cursor, the sort
key, the pause flag and `lastRefresh` are as before, and one frame is drawn. -/
theorem enter_toggles_only_when_paused (s : State) :
    (s.paused = false → enterHandler s = some s) ∧
    (s.paused = true → ∀ (p : Int) (w : RoutineWidget),
      index s.grid.rows s.grid.cursorPos = some p → WidgetMap.Get s.wmap p = some w →
      ∃ s', enterHandler s = some s' ∧
        WidgetMap.Get s'.wmap p = some { w with showTrace := !w.showTrace } ∧
        (∀ m, m ≠ p → WidgetMap.Get s'.wmap m = WidgetMap.Get s.wmap m) ∧
        WidgetMap.keys s'.wmap = WidgetMap.keys s.wmap ∧
        s'.grid.rows = s.grid.rows ∧ s'.grid.cursorPos = s.grid.cursorPos ∧
        s'.paused = s.paused ∧ s'.sortKey = s.sortKey ∧
        s'.lastRefresh = s.lastRefresh ∧ s'.frames = s.frames + 1) := by
  constructor
  · intro hp
    simp [enterHandler, hp]
  · intro hp p w hi hw
    refine ⟨Render { s with wmap := WidgetMap.store s.wmap p w.ToggleShowTrace }, ?_, ?_, ?_,
      ?_, rfl, rfl, rfl, rfl, rfl, rfl⟩
    · simp [enterHandler, hp, hi, hw]
    · simp [Render, Get_store, RoutineWidget.ToggleShowTrace]
    · intro m hm
      have hne : ¬ p = m := fun e => hm e.symm
      simp [Render, Get_store, hne]
    · simpa [Render] using keys_store_of_Get s.wmap p w w.ToggleShowTrace hw

theorem enter_toggles_only_when_paused_witness :
    ∃ s', enterHandler pausedTwoRows = some s' ∧
      WidgetMap.Get s'.wmap 5
        = some { num := 5, state := "running", desc := "main.work()",
                 trace := ["running", "main.go:10"], showTrace := true } ∧
      (∀ m, m ≠ 5 → WidgetMap.Get s'.wmap m = WidgetMap.Get pausedTwoRows.wmap m) ∧
      WidgetMap.keys s'.wmap = WidgetMap.keys pausedTwoRows.wmap ∧
      s'.grid.rows = pausedTwoRows.grid.rows ∧
      s'.grid.cursorPos = pausedTwoRows.grid.cursorPos ∧
      s'.paused = pausedTwoRows.paused ∧ s'.sortKey = pausedTwoRows.sortKey ∧
      s'.lastRefresh = pausedTwoRows.lastRefresh ∧
      s'.frames = pausedTwoRows.frames + 1 :=
  (enter_toggles_only_when_paused pausedTwoRows).2 rfl 5
    { num := 5, state := "running", desc := "main.work()",
      trace := ["running", "main.go:10"], showTrace := false } (by decide) (by decide)

/-- C7, as stated, fails: with an interval of 16777217 seconds and `paused` false, a
wake 16777216.999999999 seconds after `lastRefresh` calls `Refresh`, one nanosecond
before the interval has elapsed: `Seconds()` rounds the elapsed time up to the next whole
second. -/
theorem timer_wake_before_interval :
    startState.paused = false ∧
      Display.handle 16777217 (timerStarted 16777217 startState) startState
          (.wake pollWithSeven 16777216999999999)
        = Refresh startState pollWithSeven 16777216999999999 ∧
      ¬ (16777217 * 1000000000 ≤ 16777216999999999 - startState.lastRefresh) := by
  have hs : Since startState.lastRefresh 16777216999999999 = 16777216999999999 := by decide
  have hdue : refreshDue 16777217 startState 16777216999999999 = true := by
    simp only [refreshDue, decide_eq_true_eq, hs]
    rw [Seconds_round_up 16777216999999999 (by norm_num) (by norm_num) (by norm_num)
      (by norm_num)]
    norm_num
  have hst : timerStarted 16777217 startState = true := by decide
  refine ⟨rfl, ?_, by decide⟩
  simp only [Display.handle, hst, if_true, timerWake, hdue]

/-- C7, amended: for every interval from 1 to 16777216 seconds, every value of `paused`
on entry of `Display` and every wake of the timer, the wake calls `Refresh` if and only
if `paused` is false and the time elapsed since `lastRefresh` is at least the interval in
seconds; otherwise it changes nothing. With `paused` true, or with an interval that is
not positive, no timer runs and no elapsed time triggers a poll; after un-pausing, with a
positive interval, the timer runs again. No handler of the loop changes `paused`, so its
value on entry is its value at every wake. -/
theorem timer_refresh_iff (intervalFlag : Int) (entry s : State)
    (fetched : Except PollError (List Routine)) (now : Int) :
    (0 < intervalFlag → intervalFlag ≤ 16777216 →
      (Display.handle intervalFlag (timerStarted intervalFlag entry) s (.wake fetched now)
          = Refresh s fetched now
        ↔ (entry.paused = false ∧ intervalFlag * 1000000000 ≤ now - s.lastRefresh)) ∧
      (¬ (entry.paused = false ∧ intervalFlag * 1000000000 ≤ now - s.lastRefresh) →
        Display.handle intervalFlag (timerStarted intervalFlag entry) s (.wake fetched now)
          = some s)) ∧
    (entry.paused = true →
      Display.handle intervalFlag (timerStarted intervalFlag entry) s (.wake fetched now)
        = some s) ∧
    (intervalFlag ≤ 0 →
      Display.handle intervalFlag (timerStarted intervalFlag entry) s (.wake fetched now)
        = some s) ∧
    (entry.paused = true → 0 < intervalFlag →
      timerStarted intervalFlag (pHandler entry) = true) ∧
    (∀ events s', Display.run intervalFlag entry events = some s' →
      s'.paused = entry.paused) := by
  refine ⟨?_, ?_, ?_, ?_, ?_⟩
  · intro h0 h1
    have hdue := refreshDue_iff intervalFlag s now h0 h1
    have hne := Refresh_ne_self s fetched now
    by_cases hp : entry.paused = true
    · have hE : Display.handle intervalFlag (timerStarted intervalFlag entry) s
          (.wake fetched now) = some s := by
        simp [Display.handle, timerStarted, hp]
      refine ⟨⟨fun h => absurd (h.symm.trans hE) hne, fun h => ?_⟩, fun _ => hE⟩
      rw [hp] at h
      exact absurd h.1 (by decide)
    · have hp' : entry.paused = false := by simpa using hp
      have hst : timerStarted intervalFlag entry = true := by simp [timerStarted, hp', h0]
      by_cases hd : refreshDue intervalFlag s now = true
      · have hE : Display.handle intervalFlag (timerStarted intervalFlag entry) s
            (.wake fetched now) = Refresh s fetched now := by
          simp only [Display.handle, hst, if_true, timerWake, hd]
        exact ⟨⟨fun _ => ⟨hp', hdue.1 hd⟩, fun _ => hE⟩,
          fun h => absurd ⟨hp', hdue.1 hd⟩ h⟩
      · have hd' : refreshDue intervalFlag s now = false := by simpa using hd
        have hE : Display.handle intervalFlag (timerStarted intervalFlag entry) s
            (.wake fetched now) = some s := by
          simp [Display.handle, hst, timerWake, hd']
        exact ⟨⟨fun h => absurd (h.symm.trans hE) hne,
          fun h => absurd (hdue.2 h.2) hd⟩, fun _ => hE⟩
  · intro hp
    simp [Display.handle, timerStarted, hp]
  · intro hi
    have : ¬ 0 < intervalFlag := by omega
    simp [Display.handle, timerStarted, this]
  · intro hp hi
    simp [timerStarted, pHandler, hp, hi]
  · intro events s' h
    exact loop_paused intervalFlag (timerStarted intervalFlag entry) events
      (resizeHandler entry) s' h

theorem timer_refresh_iff_witness :
    (Display.handle 5 (timerStarted 5 startState) startState
          (.wake pollWithSeven 5000000000)
        = Refresh startState pollWithSeven 5000000000
      ↔ (startState.paused = false ∧
          5 * 1000000000 ≤ 5000000000 - startState.lastRefresh)) ∧
    Display.handle 5 (timerStarted 5 pausedStart) pausedStart
        (.wake pollWithSeven 5000000000) = some pausedStart ∧
    timerStarted 5 (pHandler pausedStart) = true :=
  ⟨((timer_refresh_iff 5 startState startState pollWithSeven 5000000000).1
      (by decide) (by decide)).1,
    (timer_refresh_iff 5 pausedStart pausedStart pollWithSeven 5000000000).2.1 rfl,
    (timer_refresh_iff 5 pausedStart pausedStart pollWithSeven 5000000000).2.2.2.1 rfl
      (by decide)⟩

/-- C8, as stated, fails: a due wake of the background timer with a successful poll
replaces the rows of the grid, fills the widget cache and draws a frame. -/
theorem timerWake_changes_grid :
    ¬ ∀ (intervalFlag : Int) (s : State) (fetched : Except PollError (List Routine))
        (now : Int) (s' : State), timerWake intervalFlag s fetched now = some s' →
        s'.grid.rows = s.grid.rows ∧ s'.grid.cursorPos = s.grid.cursorPos ∧
          s'.wmap = s.wmap ∧ s'.frames = s.frames := by
  intro h
  have hdue : refreshDue 5 startState 6000000000 = true :=
    (refreshDue_iff 5 startState 6000000000 (by decide) (by decide)).2 (by decide)
  have hw : timerWake 5 startState (.ok sampleRoutines) 6000000000
      = some (startShown 6000000000) := by
    simp only [timerWake, hdue, if_true]
    decide
  exact absurd (h 5 startState (.ok sampleRoutines) 6000000000 _ hw).1 (by decide)

/-- C8, amended: no wake of the background timer changes the cursor, and a wake that is
not due changes nothing. A due wake runs `Refresh` in the background task itself. When
the poll fails it leaves the cache, the rows and `lastRefresh` as they were and draws a
frame. When the poll succeeds with records that all carry a trace line it rebuilds the
rows, one per record in the order of the records, creates or updates the cache entry of
every id of the poll (when the ids of the poll are distinct: with the state of the
record, its first trace line as description, and its trace lines with the first one
replaced by the state), leaves the cache entries of all other ids as they were, stamps
`lastRefresh` and draws a frame. -/
theorem timerWake_runs_Refresh (intervalFlag : Int) (s : State)
    (fetched : Except PollError (List Routine)) (now : Int) :
    (∀ s', timerWake intervalFlag s fetched now = some s' →
      s'.grid.cursorPos = s.grid.cursorPos) ∧
    (refreshDue intervalFlag s now = false →
      timerWake intervalFlag s fetched now = some s) ∧
    (refreshDue intervalFlag s now = true → ∀ e, poll fetched = .error e →
      ∃ s', timerWake intervalFlag s fetched now = some s' ∧ s'.wmap = s.wmap ∧
        s'.grid.rows = s.grid.rows ∧ s'.lastRefresh = s.lastRefresh ∧
        s'.frames = s.frames + 1) ∧
    (refreshDue intervalFlag s now = true → ∀ routines,
      poll fetched = .ok routines → (∀ r ∈ routines, r.Trace ≠ []) →
      ∃ s', timerWake intervalFlag s fetched now = some s' ∧
        s'.grid.rows = routines.map Routine.Num ∧
        (∀ r ∈ routines, ∃ w, WidgetMap.Get s'.wmap r.Num = some w) ∧
        ((routines.map Routine.Num).Nodup → ∀ r ∈ routines,
          ∃ w, WidgetMap.Get s'.wmap r.Num = some w ∧ w.state = r.State ∧
            some w.desc = r.Trace.head? ∧ w.trace = r.State :: r.Trace.tail) ∧
        (∀ m, m ∉ routines.map Routine.Num →
          WidgetMap.Get s'.wmap m = WidgetMap.Get s.wmap m) ∧
        s'.lastRefresh = now ∧ s'.frames = s.frames + 1) := by
  refine ⟨?_, ?_, ?_, ?_⟩
  · intro s' h
    simp only [timerWake] at h
    split_ifs at h
    · exact (Refresh_frame s s' fetched now h).2.2.1
    · rw [← Option.some.inj h]
  · intro hd
    simp [timerWake, hd]
  · intro hd e he
    rw [poll_error fetched e he]
    simp only [timerWake, hd, if_true, Refresh_error]
    exact ⟨Render s, rfl, rfl, rfl, rfl, rfl⟩
  · intro hd routines hp ht
    rw [poll_ok fetched routines hp]
    obtain ⟨s', hs', hrows, _, _, hl, hfr, _, hc, ho, hst⟩ :=
      Refresh_ok_rows s routines now ht
    refine ⟨s', ?_, hrows, hc, hst, ho, hl, hfr⟩
    simp only [timerWake, hd, if_true]
    exact hs'

theorem timerWake_runs_Refresh_witness :
    refreshDue 5 startState 4999999999 = false ∧
      timerWake 5 startState (.ok sampleRoutines) 4999999999 = some startState ∧
      refreshDue 5 startState 6000000000 = true ∧
      ∃ s', timerWake 5 startState (.ok sampleRoutines) 6000000000 = some s' ∧
        s'.grid.rows = [5, 3, 9] ∧ s'.lastRefresh = 6000000000 ∧
        s'.frames = startState.frames + 1 :=
  ⟨Bool.eq_false_iff.2 (fun h =>
      absurd ((refreshDue_iff 5 startState 4999999999 (by decide) (by decide)).1 h)
        (by decide)),
    (timerWake_runs_Refresh 5 startState (.ok sampleRoutines) 4999999999).2.1
      (Bool.eq_false_iff.2 (fun h =>
        absurd ((refreshDue_iff 5 startState 4999999999 (by decide) (by decide)).1 h)
          (by decide))),
    (refreshDue_iff 5 startState 6000000000 (by decide) (by decide)).2 (by decide),
    ((timerWake_runs_Refresh 5 startState (.ok sampleRoutines) 6000000000).2.2.2
      ((refreshDue_iff 5 startState 6000000000 (by decide) (by decide)).2 (by decide))
      sampleRoutines rfl (by decide)).imp
      (fun _ h => ⟨h.1, h.2.1, h.2.2.2.2.2.1, h.2.2.2.2.2.2⟩)⟩

/-- C9, as stated, fails: the widget of goroutine 7, expanded, is still in the cache
after three successful polls without 7, and the row that a fourth poll with 7 shows is
that widget, with `expanded` still true. -/
theorem absent_widget_not_evicted :
    (refreshAll expandedSeven
        [(pollWithoutSeven, 1), (pollWithoutSeven, 2), (pollWithoutSeven, 3)]).map
        (fun s => (s.grid.rows, (WidgetMap.Get s.wmap 7).map RoutineWidget.showTrace))
      = some ([1], some true) ∧
    (refreshAll expandedSeven
        [(pollWithoutSeven, 1), (pollWithoutSeven, 2), (pollWithoutSeven, 3),
          (pollWithSeven, 4)]).map
        (fun s => (s.grid.rows, (WidgetMap.Get s.wmap 7).map RoutineWidget.showTrace))
      = some ([7], some true) := by
  decide

/-- C9, amended: `Refresh` never removes a widget from the cache. Through any number of
refreshes, successful or not and with or without its id, a cached widget stays the
cache entry of its id, at the same place in the cache, and keeps its `expanded` flag;
so a later poll that reintroduces the id shows that same widget. -/
theorem refreshAll_never_evicts (s s' : State)
    (polls : List (Except PollError (List Routine) × Int))
    (h : refreshAll s polls = some s') (id : Int) (w : RoutineWidget)
    (hw : WidgetMap.Get s.wmap id = some w) :
    ∃ w', WidgetMap.Get s'.wmap id = some w' ∧ w'.showTrace = w.showTrace ∧
      w'.num = w.num ∧ WidgetMap.keys s.wmap <+: WidgetMap.keys s'.wmap := by
  induction polls generalizing s w with
  | nil =>
    simp only [refreshAll, Option.some.injEq] at h
    exact ⟨w, by rw [← h, hw], rfl, rfl, by rw [h]⟩
  | cons p rest ih =>
    obtain ⟨fetched, now⟩ := p
    cases hr : Refresh s fetched now with
    | none => simp [refreshAll, hr] at h
    | some s₁ =>
      simp only [refreshAll, hr] at h
      obtain ⟨w₁, hw₁, hs₁, hn₁⟩ := Refresh_showTrace s s₁ fetched now hr id w hw
      obtain ⟨w', hw', hs', hn', hk'⟩ := ih s₁ h w₁ hw₁
      exact ⟨w', hw', hs'.trans hs₁, hn'.trans hn₁,
        (Refresh_keys_extends s s₁ fetched now hr).trans hk'⟩

theorem refreshAll_never_evicts_witness :
    ∃ w', WidgetMap.Get sevenAfterFourPolls.wmap 7 = some w' ∧ w'.showTrace = true ∧
      w'.num = 7 ∧
      WidgetMap.keys expandedSeven.wmap <+: WidgetMap.keys sevenAfterFourPolls.wmap :=
  refreshAll_never_evicts expandedSeven sevenAfterFourPolls
    [(pollWithoutSeven, 1), (pollWithoutSeven, 2), (pollWithoutSeven, 3), (pollWithSeven, 4)]
    (by decide) 7
    { num := 7, state := "running", desc := "main.work()", trace := ["running"],
      showTrace := true } (by decide)

/-- C10: on the two sort keys, toggling twice is the identity. For a grid showing a
snapshot under one of the two keys, pressing `s` twice with the snapshot unchanged
toggles the key, toggles it back, and the rows are again in the order they had. -/
theorem sort_toggle_twice (s₀ s : State) (rs : List Routine) (t₀ t₁ t₂ : Int)
    (hk : s₀.sortKey = "num" ∨ s₀.sortKey = "state")
    (h : Refresh s₀ (.ok rs) t₀ = some s) :
    toggleSortKey (toggleSortKey s.sortKey) = s.sortKey ∧
    ∃ s₁ s₂, sHandler s (.ok rs) t₁ = some s₁ ∧ sHandler s₁ (.ok rs) t₂ = some s₂ ∧
      s₁.sortKey = toggleSortKey s.sortKey ∧ s₂.sortKey = s.sortKey ∧
      s₂.grid.rows = s.grid.rows := by
  obtain ⟨wm, g, hrows, hs⟩ := Refresh_ok_inv s₀ s rs t₀ h
  have ht : ∀ r ∈ rs, r.Trace ≠ [] :=
    refreshRows_traces rs s₀.wmap wm s₀.grid.Clear g hrows
  obtain ⟨sa, hsa, hra, hka, _⟩ := Refresh_ok_rows s₀ rs t₀ ht
  have hsa' : sa = s := Option.some.inj (hsa.symm.trans h)
  subst hsa'
  have hinv : toggleSortKey (toggleSortKey sa.sortKey) = sa.sortKey := by
    rw [hka]
    rcases hk with hk | hk <;> rw [hk] <;> decide
  obtain ⟨s₁, hs₁, _, hk₁, _⟩ :=
    Refresh_ok_rows { sa with sortKey := toggleSortKey sa.sortKey } rs t₁ ht
  obtain ⟨s₂, hs₂, hr₂, hk₂, _⟩ :=
    Refresh_ok_rows { s₁ with sortKey := toggleSortKey s₁.sortKey } rs t₂ ht
  refine ⟨hinv, s₁, s₂, hs₁, hs₂, hk₁, ?_, ?_⟩
  · rw [hk₂]
    simp only [hk₁]
    exact hinv
  · rw [hr₂, hra]

theorem sort_toggle_twice_witness :
    toggleSortKey (toggleSortKey "num") = "num" ∧
    ∃ s₁ s₂, sHandler (startShown 1) (.ok sampleRoutines) 2 = some s₁ ∧
      sHandler s₁ (.ok sampleRoutines) 3 = some s₂ ∧ s₁.sortKey = "state" ∧
      s₂.sortKey = "num" ∧ s₂.grid.rows = [5, 3, 9] :=
  sort_toggle_twice startState (startShown 1) sampleRoutines 1 2 3 (Or.inl rfl) (by decide)

end Grmon
